import Mathlib

/-!
# Paper Insight: a verification development

A shallow embedding of the four modules of the repository
(`src/js/data.js`, `src/js/filters.js`, `src/js/components.js`,
`src/js/app.js`) followed by theorems about them.

Modelling conventions.
* A JavaScript string is a list of characters (`JsString`).  Well-formed
  strings only: substring search on code points and on UTF-16 code units
  agree on them.
* What the engine brings and the repository does not hold, the Unicode case
  mapping behind `String.prototype.toLowerCase` and the text of built-in
  functions, is a parameter (`Engine`); what a theorem needs of it is a
  hypothesis of that theorem.
* A Number is a binary64 value.  The non-negative integer-valued ones are
  natural numbers, with division and printing rounded as IEEE 754 and
  `Number::toString` prescribe.
* Module singletons (`DataManager`, `Filters`, `App`) become records that are
  passed explicitly.
-/

namespace PaperInsight

/-! ## Strings -/

/-- A JavaScript string, as its list of characters. -/
abbrev JsString := List Char

/-- What the JavaScript engine supplies and the repository does not hold. -/
structure Engine where
  /-- The result of `String.prototype.toLowerCase`, by the engine's Unicode
  case mapping. -/
  toLowerCase : JsString → JsString
  /-- The string a template literal makes of the value found under a property
  name that every object inherits from `Object.prototype` (for a built-in
  function, its source text as the engine prints it). -/
  inheritedText : JsString → JsString

/-- On a string of ASCII characters `toLowerCase` maps `A`..`Z` to `a`..`z`
and leaves every other character as it is. -/
def Engine.LowersAscii (js : Engine) : Prop :=
  ∀ s : JsString, (∀ c ∈ s, c.toNat < 128) → js.toLowerCase s = s.map Char.toLower

/-- A blank is its own lower case and is neither a cased letter nor
case-ignorable, so the two sides of a blank are lower-cased separately. -/
def Engine.LowersAcrossBlank (js : Engine) : Prop :=
  ∀ a b : JsString, js.toLowerCase (a ++ ' ' :: b) = js.toLowerCase a ++ ' ' :: js.toLowerCase b

/-- An engine for evaluation on ASCII data: the ASCII case mapping, and the
texts that V8 prints for inherited properties. -/
def asciiEngine : Engine :=
  { toLowerCase := fun s => s.map Char.toLower,
    inheritedText := fun key =>
      if key = "__proto__".toList then "[object Object]".toList
      else if key = "constructor".toList then
        "function Object() \x7b [native code] \x7d".toList
      else "function ".toList ++ key ++ "() \x7b [native code] \x7d".toList }

/-- The result of `String.prototype.includes`: `needle` occurs in `s` as a
contiguous substring. -/
def includes (s needle : JsString) : Bool := decide (needle <:+: s)

/-- The result of `Array.prototype.join` on an array of strings. -/
def join (sep : JsString) : List JsString → JsString
  | [] => []
  | [x] => x
  | x :: y :: rest => x ++ sep ++ join sep (y :: rest)

/-- The code points that `String.prototype.trim` strips: the ECMAScript
`WhiteSpace` and `LineTerminator` productions. -/
def isTrimChar (c : Char) : Bool :=
  let n := c.toNat
  n == 0x09 || n == 0x0A || n == 0x0B || n == 0x0C || n == 0x0D || n == 0x20 ||
  n == 0xA0 || n == 0x1680 || (0x2000 ≤ n && n ≤ 0x200A) || n == 0x2028 ||
  n == 0x2029 || n == 0x202F || n == 0x205F || n == 0x3000 || n == 0xFEFF

/-- The result of `String.prototype.trim`. -/
def trim (s : JsString) : JsString :=
  ((s.dropWhile isTrimChar).reverse.dropWhile isTrimChar).reverse

/-- JavaScript truthiness of a string: every string but the empty one. -/
def truthy (s : JsString) : Bool := !s.isEmpty

/-! ## Numbers

The Numbers that occur are non-negative binary64 values.  An integer-valued
one is the natural number it equals; a quotient is a numerator over a power
of two. -/

/-- The integer nearest to `a / b`, a tie going to the even one. -/
def roundHalfEven (a b : Nat) : Nat :=
  let q := a / b
  let r := a % b
  if 2 * r < b then q
  else if b < 2 * r then q + 1
  else if q % 2 = 0 then q else q + 1

/-- Halving `n` until it is below 2, at most `fuel` times, counting the
steps. -/
def log2Fuel : Nat → Nat → Nat
  | 0, _ => 0
  | fuel + 1, n => if n < 2 then 0 else log2Fuel fuel (n / 2) + 1

/-- The position of the leading binary digit of `n`. -/
def floorLog2 (n : Nat) : Nat := log2Fuel n n

/-- The integers from here on are read as `Infinity`: half an ulp above the
largest finite binary64 value, that is `2 ^ 1024 - 2 ^ 970`, written out in
hexadecimal. -/
def overflowThreshold : Nat :=
  0xFFFFFFFFFFFFFC00000000000000000000000000000000000000000000000000000000000000000000000000000000000000000000000000000000000000000000000000000000000000000000000000000000000000000000000000000000000000000000000000000000000000000000000000000000000000000000000000

/-- The Number that an integer below `overflowThreshold` denotes: the
nearest binary64 value, a tie going to the even significand.  Integers below
`2 ^ 53` denote themselves. -/
def toNumber (n : Nat) : Nat :=
  if n < 2 ^ 53 then n
  else
    let e := floorLog2 n - 52
    roundHalfEven n (2 ^ e) * 2 ^ e

/-- A non-negative binary64 value, `num / 2 ^ shift`. -/
structure Number64 where
  num : Nat
  shift : Nat
deriving DecidableEq, Repr

/-- The quotient `x / d` of two positive integer-valued Numbers: the exact
quotient rounded to a 53-bit significand, a tie going to the even one. -/
def divide (x d : Nat) : Number64 :=
  if d ≤ x then
    let b := floorLog2 (x / d)
    if 52 ≤ b then
      ⟨roundHalfEven x (d * 2 ^ (b - 52)) * 2 ^ (b - 52), 0⟩
    else
      ⟨roundHalfEven (x * 2 ^ (52 - b)) d, 52 - b⟩
  else
    let j := floorLog2 ((d + x - 1) / x - 1) + 1
    ⟨roundHalfEven (x * 2 ^ (52 + j)) d, 52 + j⟩

/-- `Math.round(q)`: the integer nearest to `q`, a half going up, that is
the floor of `q + 1/2`. -/
def mathRound (q : Number64) : Nat :=
  (2 * q.num + 2 ^ q.shift) / 2 ^ (q.shift + 1)

/-- The number of decimal digits of `n`. -/
def decimalLength (n : Nat) : Nat := (Nat.toDigits 10 n).length

/-- The two integers with `k` significant digits next to `v`, which has
`len` digits, the nearer one first (at equal distance the one whose digits
form an even number). -/
def candidatesAt (v len k : Nat) : List Nat :=
  let z := len - k
  let q := v / 10 ^ z
  let r := v % 10 ^ z
  let lo := q * 10 ^ z
  let hi := (q + 1) * 10 ^ z
  if 2 * r < 10 ^ z then [lo, hi]
  else if 10 ^ z < 2 * r then [hi, lo]
  else if q % 2 = 0 then [lo, hi] else [hi, lo]

/-- The integer that `Number::toString` prints for the integer-valued Number
`v`: among the integers that denote `v`, one with the fewest significant
digits, and among those the nearest to `v`. -/
def shortestDecimal (v : Nat) : Nat :=
  let len := decimalLength v
  let cands := (List.range len).flatMap (fun i => candidatesAt v len (i + 1))
  (cands.find? (fun c => toNumber c == v)).getD v

/-- The number `n` without its trailing decimal zeros (`fuel` bounds their
count). -/
def stripZeros (n : Nat) : Nat → Nat
  | 0 => n
  | fuel + 1 => if n % 10 = 0 ∧ n ≠ 0 then stripZeros (n / 10) fuel else n

/-- `Number::toString` on a non-negative integer-valued Number, as a template
literal applies it: plain decimal digits up to 21 digits, exponent form
beyond. -/
def numberToString (v : Nat) : JsString :=
  let c := shortestDecimal v
  if c < 10 ^ 21 then (Nat.repr c).toList
  else
    let n := decimalLength c
    let digits := (Nat.repr (stripZeros c n)).toList
    match digits with
    | [] => []
    | [d] => d :: 'e' :: '+' :: (Nat.repr (n - 1)).toList
    | d :: rest => d :: '.' :: rest ++ 'e' :: '+' :: (Nat.repr (n - 1)).toList

/-! ## Data model (the shape of `data/articles.json`) -/

/-- The `categories` field of an article: two lists of category ids. -/
structure ArticleCategories where
  standard : List JsString
  thematic : List JsString
deriving DecidableEq, Repr

/-- The `summary` field of an article. -/
structure Summary where
  oneLine : JsString
  fullSummary : JsString
deriving DecidableEq, Repr

/-- The `thumbnail` field of an article; `url` and `colors` may be missing. -/
structure Thumbnail where
  type : JsString
  url : Option JsString
  colors : Option (List JsString)
deriving DecidableEq, Repr

/-- The `metadata` field of an article. -/
structure Metadata where
  source : JsString
deriving DecidableEq, Repr

/-- An article of the catalog.  `thumbnail` and `relatedArticles` may be
missing (`undefined`). -/
structure Article where
  id : JsString
  catchyTitle : JsString
  originalTitle : JsString
  summary : Summary
  tags : List JsString
  categories : ArticleCategories
  mood : List JsString
  readingTime : Nat
  thumbnail : Option Thumbnail
  metadata : Metadata
  relatedArticles : Option (List JsString)
deriving DecidableEq, Repr

/-- A category entry. -/
structure Category where
  id : JsString
  name : JsString
  nameEn : JsString
  icon : JsString
deriving DecidableEq, Repr

/-- A mood entry. -/
structure Mood where
  id : JsString
  name : JsString
  icon : JsString
deriving DecidableEq, Repr

/-- The two category pools held by `DataManager.categories`. -/
structure CategoryPools where
  standard : List Category
  thematic : List Category
deriving DecidableEq, Repr

/-! ## `data.js`: DataManager -/

/-- The state of the `DataManager` singleton. -/
structure DataManager where
  articles : List Article
  categories : CategoryPools
  moods : List Mood
deriving DecidableEq, Repr

namespace DataManager

/-- The initial field values of the `DataManager` object literal. -/
def initial : DataManager :=
  { articles := [], categories := { standard := [], thematic := [] }, moods := [] }

/-- `DataManager.loadFallbackData()`: the catalog installed when the fetch
fails. -/
def loadFallbackData (_dm : DataManager) : DataManager :=
  { categories :=
      { standard :=
          [ ⟨"all".toList, "すべて".toList, "All".toList, "📚".toList⟩,
            ⟨"nature-science".toList, "自然科学".toList, "Nature & Universe".toList, "🌌".toList⟩,
            ⟨"ai-technology".toList, "AI・テクノロジー".toList, "AI & Technology".toList, "🤖".toList⟩,
            ⟨"human-mind".toList, "人間科学・心理".toList, "Human & Mind".toList, "🧠".toList⟩,
            ⟨"society-business".toList, "社会科学・ビジネス".toList, "Society & Business".toList, "📊".toList⟩,
            ⟨"health-medical".toList, "医歯薬学・ヘルスケア".toList, "Health & Medical".toList, "🏥".toList⟩ ],
        thematic :=
          [ ⟨"life-hacks".toList, "ライフハック".toList, "Life Hacks".toList, "✨".toList⟩,
            ⟨"applied-ai".toList, "AI × 〇〇".toList, "Applied AI".toList, "🔮".toList⟩,
            ⟨"future-trends".toList, "未来予測".toList, "Future Trends".toList, "🚀".toList⟩,
            ⟨"thinking-models".toList, "思考法".toList, "Thinking Models".toList, "💡".toList⟩,
            ⟨"sustainability".toList, "サステナビリティ".toList, "Sustainability".toList, "🌱".toList⟩ ] },
    moods :=
      [ ⟨"all".toList, "すべて".toList, "🌟".toList⟩,
        ⟨"motivating".toList, "元気が欲しい".toList, "💪".toList⟩,
        ⟨"practical".toList, "すぐ使える知識".toList, "🛠️".toList⟩,
        ⟨"thought-provoking".toList, "じっくり考えたい".toList, "🤔".toList⟩,
        ⟨"inspiring".toList, "ワクワクしたい".toList, "✨".toList⟩ ],
    articles := [] }

/-- `DataManager.getAllArticles()`. -/
def getAllArticles (dm : DataManager) : List Article := dm.articles

/-- `DataManager.getArticleById(id)`: the first article with that id, or
`none` for `undefined`. -/
def getArticleById (dm : DataManager) (id : JsString) : Option Article :=
  dm.articles.find? (fun article => article.id == id)

/-- `DataManager.getAllCategories()`. -/
def getAllCategories (dm : DataManager) : List Category :=
  let allCategory : Category := ⟨"all".toList, "すべて".toList, "All".toList, "📚".toList⟩
  [allCategory] ++ dm.categories.standard ++ dm.categories.thematic

/-- `DataManager.getStandardCategories()`. -/
def getStandardCategories (dm : DataManager) : List Category := dm.categories.standard

/-- `DataManager.getThematicCategories()`. -/
def getThematicCategories (dm : DataManager) : List Category := dm.categories.thematic

/-- `DataManager.getAllMoods()`. -/
def getAllMoods (dm : DataManager) : List Mood :=
  let allMood : Mood := ⟨"all".toList, "すべて".toList, "🌟".toList⟩
  [allMood] ++ dm.moods

/-- `DataManager.getCategoryById(id)`: the first match in the standard pool
followed by the thematic pool, or `none` for `undefined`. -/
def getCategoryById (dm : DataManager) (id : JsString) : Option Category :=
  let allCategories := dm.categories.standard ++ dm.categories.thematic
  allCategories.find? (fun cat => cat.id == id)

/-- `DataManager.getRelatedArticles(articleId, limit)` for a non-negative
integer `limit` (the caller's value, or the default `3`): `slice(0, limit)`, then `map` through `getArticleById`, then
`filter(Boolean)`. -/
def getRelatedArticles (dm : DataManager) (articleId : JsString) (limit : Nat) :
    List Article :=
  match dm.getArticleById articleId with
  | none => []
  | some article =>
    match article.relatedArticles with
    | none => []
    | some related =>
      (((related.take limit).map (fun id => dm.getArticleById id)).filter Option.isSome).filterMap
        (fun r => r)

/-- The literal `aiCategories` of `DataManager.isAIRelated`. -/
def aiCategories : List JsString := ["ai-technology".toList, "applied-ai".toList]

/-- The tag test shared by `isAIRelated` and `createTagsHTML`. -/
def isAITag (js : Engine) (tag : JsString) : Bool :=
  includes (js.toLowerCase tag) "ai".toList ||
  includes (js.toLowerCase tag) "chatgpt".toList ||
  includes (js.toLowerCase tag) "llm".toList

/-- `DataManager.isAIRelated(article)`. -/
def isAIRelated (js : Engine) (article : Article) : Bool :=
  let hasAICategory :=
    article.categories.standard.any (fun c => aiCategories.contains c) ||
    article.categories.thematic.any (fun c => aiCategories.contains c)
  let hasAITag := article.tags.any (isAITag js)
  hasAICategory || hasAITag

end DataManager

/-! ## `filters.js`: Filters -/

/-- The state of the `Filters` singleton. -/
structure Filters where
  currentCategory : JsString
  currentMood : JsString
  searchQuery : JsString
deriving DecidableEq, Repr

namespace Filters

/-- `Filters.init()`. -/
def init (_f : Filters) : Filters :=
  { currentCategory := "all".toList, currentMood := "all".toList, searchQuery := [] }

/-- `Filters.setCategory(categoryId)`. -/
def setCategory (f : Filters) (categoryId : JsString) : Filters :=
  { f with currentCategory := categoryId }

/-- `Filters.setMood(moodId)`. -/
def setMood (f : Filters) (moodId : JsString) : Filters :=
  { f with currentMood := moodId }

/-- `Filters.setSearchQuery(query)`. -/
def setSearchQuery (js : Engine) (f : Filters) (query : JsString) : Filters :=
  { f with searchQuery := trim (js.toLowerCase query) }

/-- The array `searchFields` built inside `filterArticles`, before `join`. -/
def searchFieldList (article : Article) : List JsString :=
  [article.catchyTitle, article.originalTitle, article.summary.oneLine,
    article.summary.fullSummary] ++ article.tags

/-- The string `searchFields` of `filterArticles`: joined with a blank and
lower-cased. -/
def searchFields (js : Engine) (article : Article) : JsString :=
  js.toLowerCase (join " ".toList (searchFieldList article))

/-- The callback passed to `articles.filter` in `Filters.filterArticles`, with
its three early `return false` exits. -/
def keeps (js : Engine) (f : Filters) (article : Article) : Bool :=
  if f.currentCategory != "all".toList &&
      (let inStandard := article.categories.standard.contains f.currentCategory
       let inThematic := article.categories.thematic.contains f.currentCategory
       !inStandard && !inThematic) then
    false
  else if f.currentMood != "all".toList && !article.mood.contains f.currentMood then
    false
  else if truthy f.searchQuery && !includes (searchFields js article) f.searchQuery then
    false
  else
    true

/-- `Filters.filterArticles(articles)`. -/
def filterArticles (js : Engine) (f : Filters) (articles : List Article) : List Article :=
  articles.filter (keeps js f)

/-- `Filters.getSectionTitle()`. -/
def getSectionTitle (f : Filters) (dm : DataManager) : JsString :=
  if truthy f.searchQuery then
    "「".toList ++ f.searchQuery ++ "」の検索結果".toList
  else
    match (if f.currentCategory != "all".toList then dm.getCategoryById f.currentCategory
           else none) with
    | some category => category.name
    | none =>
      match (if f.currentMood != "all".toList then
               dm.getAllMoods.find? (fun m => m.id == f.currentMood)
             else none) with
      | some mood => mood.icon ++ " ".toList ++ mood.name
      | none => "すべての記事".toList

end Filters

/-! ## `components.js`: Components

An element is represented by the markup assigned to its `innerHTML`. -/

namespace Components

/-- The serialisation of one character of a text node, as `innerHTML` yields
it: `&`, `<`, `>` and the no-break space become character references. -/
def escapeChar (c : Char) : JsString :=
  if c = '&' then "&amp;".toList
  else if c = '<' then "&lt;".toList
  else if c = '>' then "&gt;".toList
  else if c.toNat = 0xA0 then "&nbsp;".toList
  else [c]

/-- `Components.escapeHTML(str)`: the empty string for a falsy argument,
otherwise the `innerHTML` of an element whose `textContent` is `str`. -/
def escapeHTML (str : JsString) : JsString :=
  if !truthy str then [] else str.flatMap escapeChar

/-- `Components.getThumbnailStyle(thumbnail)`. -/
def getThumbnailStyle (thumbnail : Option Thumbnail) : JsString :=
  match thumbnail with
  | none => []
  | some t =>
    match t.url with
    | some url =>
      if t.type == "image".toList && truthy url then
        "background-image: url('".toList ++ url ++
          "'); background-size: cover; background-position: center;".toList
      else []
    | none => []

/-- The literal `colorMap` of `Components.getGradientClass`. -/
def colorMap : List (JsString × JsString) :=
  [ ("#667eea".toList, "gradient-purple-blue".toList),
    ("#0D9488".toList, "gradient-teal-cyan".toList),
    ("#F59E0B".toList, "gradient-orange-pink".toList),
    ("#3B82F6".toList, "gradient-blue-indigo".toList),
    ("#10B981".toList, "gradient-green-teal".toList),
    ("#8B5CF6".toList, "gradient-purple-blue".toList),
    ("#22C55E".toList, "gradient-green-teal".toList),
    ("#EF4444".toList, "gradient-rose-purple".toList) ]

/-- The property names that the object literal `colorMap` inherits from
`Object.prototype`; the value under each of them is truthy. -/
def objectPrototypeKeys : List JsString :=
  [ "constructor".toList, "hasOwnProperty".toList, "isPrototypeOf".toList,
    "propertyIsEnumerable".toList, "toLocaleString".toList, "toString".toList,
    "valueOf".toList, "__proto__".toList, "__defineGetter__".toList,
    "__defineSetter__".toList, "__lookupGetter__".toList, "__lookupSetter__".toList ]

/-- `Components.getGradientClass(thumbnail)`, as the string that the card's
template literal makes of the returned value: `colorMap[key]` finds the own
entries of `colorMap` and, failing those, what `Object.prototype` holds. -/
def getGradientClass (js : Engine) (thumbnail : Option Thumbnail) : JsString :=
  match thumbnail with
  | none => "gradient-teal-cyan".toList
  | some t =>
    match t.colors with
    | none => "gradient-teal-cyan".toList
    | some colors =>
      match colors.head? with
      | none => "gradient-teal-cyan".toList
      | some c =>
        match colorMap.lookup c with
        | some gradient => gradient
        | none =>
          if objectPrototypeKeys.contains c then js.inheritedText c
          else "gradient-teal-cyan".toList

/-- `Components.formatReadingTime(seconds)`, where `seconds` is the Number
that the given non-negative integer denotes. -/
def formatReadingTime (seconds : Nat) : JsString :=
  if overflowThreshold ≤ seconds then
    "Infinity分で読める".toList
  else
    let seconds := toNumber seconds
    if seconds < 60 then
      numberToString seconds ++ "秒で読める".toList
    else
      let minutes := mathRound (divide seconds 60)
      numberToString minutes ++ "分で読める".toList

/-- `Components.createTagsHTML(tags, highlightAI)`. -/
def createTagsHTML (js : Engine) (tags : List JsString) (highlightAI : Bool) : JsString :=
  join [] (tags.map (fun tag =>
    let isAITag := DataManager.isAITag js tag
    let tagClass := if highlightAI && isAITag then "tag tag--ai".toList else "tag".toList
    "<span class=\"".toList ++ tagClass ++ "\">".toList ++ escapeHTML tag ++ "</span>".toList))

/-- The markup that `Components.createArticleCard(article)` assigns to
`card.innerHTML`. -/
def createArticleCard (js : Engine) (article : Article) : JsString :=
  let thumbnailStyle := getThumbnailStyle article.thumbnail
  let gradientClass := getGradientClass js article.thumbnail
  let isAI := DataManager.isAIRelated js article
  let readingTimeText := formatReadingTime article.readingTime
  "\n      <div class=\"article-card__thumbnail ".toList ++ gradientClass ++
  "\" style=\"".toList ++ thumbnailStyle ++
  "\">\n      </div>\n      <div class=\"article-card__body\">\n        <div class=\"article-card__meta\">\n          <span class=\"badge badge--time\">".toList ++
  readingTimeText ++
  "</span>\n          ".toList ++ createTagsHTML js (article.tags.take 3) isAI ++
  "\n        </div>\n        <h3 class=\"article-card__title\">".toList ++
  escapeHTML article.catchyTitle ++
  "</h3>\n        <p class=\"article-card__summary\">".toList ++
  escapeHTML article.summary.oneLine ++
  "</p>\n        <div class=\"article-card__footer\">\n          <span class=\"article-card__source\">".toList ++
  escapeHTML article.metadata.source ++
  "</span>\n          <div class=\"article-card__actions\">\n            <button class=\"action-btn bookmark-btn\" data-id=\"".toList ++
  article.id ++
  "\" aria-label=\"あとで読む\">\n              🔖\n            </button>\n            <button class=\"action-btn like-btn\" data-id=\"".toList ++
  article.id ++
  "\" aria-label=\"いいね\">\n              🤍\n            </button>\n          </div>\n        </div>\n      </div>\n    ".toList

/-- The markup that `Components.createMoodPill(mood, isActive)` assigns to
`pill.innerHTML`. -/
def createMoodPill (mood : Mood) (_isActive : Bool) : JsString :=
  "<span>".toList ++ mood.icon ++ "</span> ".toList ++ mood.name

end Components

/-! ## `app.js`: App

`localStorage` and the two `Set`s are state that is passed explicitly. -/

/-- A JavaScript `Set` of strings: its elements in insertion order, without
repetition. -/
structure JsSet where
  elems : List JsString
  nodup : elems.Nodup

namespace JsSet

/-- `new Set()`. -/
def empty : JsSet := ⟨[], List.nodup_nil⟩

/-- `set.has(x)`. -/
def has (s : JsSet) (x : JsString) : Bool := s.elems.contains x

/-- `set.add(x)`: a new element goes last, a present one changes nothing. -/
def add (s : JsSet) (x : JsString) : JsSet :=
  if h : x ∈ s.elems then s
  else ⟨s.elems ++ [x], List.Nodup.append s.nodup (List.nodup_singleton x)
    (by simpa using h)⟩

/-- `set.delete(x)`. -/
def delete (s : JsSet) (x : JsString) : JsSet :=
  ⟨s.elems.erase x, s.nodup.erase x⟩

/-- `new Set(iterable)`: the elements are added one after the other. -/
def ofIterable (xs : List JsString) : JsSet := xs.foldl add empty

/-- `[...set]`. -/
def toArray (s : JsSet) : List JsString := s.elems

end JsSet

/-- The text held under a `localStorage` key, classified by what
`JSON.parse` and then `new Set(...)` make of it.  `JSON.stringify` of an
array of strings yields a text that `JSON.parse` reads back as that array, so
such a text is represented by the array. -/
inductive StoredText where
  /-- The empty string, which is falsy. -/
  | emptyText
  /-- A non-empty text that is not JSON: `JSON.parse` throws `SyntaxError`. -/
  | malformed
  /-- The JSON text of an array of strings. -/
  | jsonArray (ids : List JsString)
  /-- The JSON text of a string, which `new Set` iterates by character. -/
  | jsonString (s : JsString)
  /-- The text `null`: `new Set(null)` is the empty set. -/
  | jsonNull
  /-- The JSON text of a number, a boolean or an object: not iterable, so
  `new Set` throws `TypeError`. -/
  | jsonNotIterable
deriving DecidableEq, Repr

/-- The exceptions that the modelled built-ins throw. -/
inductive JsError where
  | syntaxError
  | typeError
  | storageError
deriving DecidableEq, Repr

/-- The browser's `localStorage`: the text under each key, and whether a
write is accepted (it is not when storage is unavailable or over quota). -/
structure LocalStorage where
  items : JsString → Option StoredText
  writable : Bool

namespace LocalStorage

/-- `localStorage.getItem(key)`, `none` for `null`. -/
def getItem (ls : LocalStorage) (key : JsString) : Option StoredText := ls.items key

/-- `localStorage.setItem(key, value)`. -/
def setItem (ls : LocalStorage) (key : JsString) (value : StoredText) :
    Except JsError LocalStorage :=
  if ls.writable then
    .ok { ls with items := fun k => if k = key then some value else ls.items k }
  else .error .storageError

end LocalStorage

/-- Truthiness of the value returned by `getItem`: `null` and the empty
string are falsy. -/
def StoredText.truthy : StoredText → Bool
  | .emptyText => false
  | _ => true

/-- The expression `new Set(JSON.parse(text))`. -/
def newSetOfParsed : StoredText → Except JsError JsSet
  | .emptyText => .error .syntaxError
  | .malformed => .error .syntaxError
  | .jsonArray ids => .ok (JsSet.ofIterable ids)
  | .jsonString s => .ok (JsSet.ofIterable (s.map fun c => [c]))
  | .jsonNull => .ok JsSet.empty
  | .jsonNotIterable => .error .typeError

/-- The expression `JSON.stringify([...set])`. -/
def stringifySet (s : JsSet) : StoredText := .jsonArray s.toArray

/-- The state of the `App` singleton: the two preference sets. -/
structure App where
  bookmarks : JsSet
  likes : JsSet

namespace App

/-- The key of the bookmark set in `localStorage`. -/
def bookmarksKey : JsString := "paperinsight_bookmarks".toList

/-- The key of the like set in `localStorage`. -/
def likesKey : JsString := "paperinsight_likes".toList

/-- The initial field values of the `App` object literal. -/
def initial : App := { bookmarks := JsSet.empty, likes := JsSet.empty }

/-- The `try` block of `App.loadPreferences`: the state when the block is
left, and the exception that left it, if any. -/
def loadPreferencesTry (app : App) (ls : LocalStorage) : App × Option JsError :=
  let bookmarks := ls.getItem bookmarksKey
  let likes := ls.getItem likesKey
  let step1 : App × Option JsError :=
    match bookmarks with
    | none => (app, none)
    | some text =>
      if text.truthy then
        match newSetOfParsed text with
        | .ok s => ({ app with bookmarks := s }, none)
        | .error e => (app, some e)
      else (app, none)
  match step1 with
  | (app1, some e) => (app1, some e)
  | (app1, none) =>
    match likes with
    | none => (app1, none)
    | some text =>
      if text.truthy then
        match newSetOfParsed text with
        | .ok s => ({ app1 with likes := s }, none)
        | .error e => (app1, some e)
      else (app1, none)

/-- `App.loadPreferences()`: the `catch` clause logs a warning and swallows
whatever the `try` block threw. -/
def loadPreferences (app : App) (ls : LocalStorage) : App :=
  (loadPreferencesTry app ls).1

/-- `App.savePreferences()`: both sets are written; a failed write leaves the
`try` block and is swallowed by the `catch` clause. -/
def savePreferences (app : App) (ls : LocalStorage) : LocalStorage :=
  match ls.setItem bookmarksKey (stringifySet app.bookmarks) with
  | .error _ => ls
  | .ok ls1 =>
    match ls1.setItem likesKey (stringifySet app.likes) with
    | .error _ => ls1
    | .ok ls2 => ls2

/-- `App.toggleBookmark(articleId)`, on the preference state and the store
(the toast and the re-rendered grid touch neither). -/
def toggleBookmark (app : App) (ls : LocalStorage) (articleId : JsString) :
    App × LocalStorage :=
  let app1 : App :=
    if app.bookmarks.has articleId then
      { app with bookmarks := app.bookmarks.delete articleId }
    else
      { app with bookmarks := app.bookmarks.add articleId }
  (app1, savePreferences app1 ls)

/-- `App.toggleLike(articleId, button)`, on the preference state and the
store (the button's class and text and the toast touch neither). -/
def toggleLike (app : App) (ls : LocalStorage) (articleId : JsString) :
    App × LocalStorage :=
  let app1 : App :=
    if app.likes.has articleId then
      { app with likes := app.likes.delete articleId }
    else
      { app with likes := app.likes.add articleId }
  (app1, savePreferences app1 ls)

end App

/-! ## Sample data used at concrete inputs -/

/-- An article with the given id, tags and related ids, and empty text
fields. -/
def sampleArticle (id : JsString) (tags : List JsString)
    (related : Option (List JsString)) : Article :=
  { id := id, catchyTitle := [], originalTitle := [], summary := ⟨[], []⟩, tags := tags,
    categories := ⟨[], []⟩, mood := [], readingTime := 45, thumbnail := none,
    metadata := ⟨[]⟩, relatedArticles := related }

/-- A catalog of three articles `a`, `b`, `c`; `a` lists the related ids
`b`, `zz` (which resolves to nothing) and `c`. -/
def sampleCatalog : DataManager :=
  { articles :=
      [ sampleArticle "a".toList ["LLM".toList]
          (some ["b".toList, "zz".toList, "c".toList]),
        sampleArticle "b".toList [] none,
        sampleArticle "c".toList ["cooking".toList] (some []) ],
    categories := { standard := [], thematic := [] },
    moods := [] }

/-- A mood whose icon and name carry markup characters. -/
def markupMood : Mood := ⟨"m".toList, "a&b<c".toList, "<i>".toList⟩

/-- An article whose id carries markup characters. -/
def markupArticle : Article := sampleArticle "x\"><b>".toList [] none

/-- A store whose bookmark text is not JSON and whose like text is the JSON
array holding the id `a1`. -/
def corruptBookmarksStore : LocalStorage :=
  { items := fun k =>
      if k = App.bookmarksKey then some StoredText.malformed
      else if k = App.likesKey then some (StoredText.jsonArray ["a1".toList])
      else none,
    writable := true }

/-- A store whose bookmark text is the JSON array of `a1`, `a2` and whose
like text is not JSON. -/
def corruptLikesStore : LocalStorage :=
  { items := fun k =>
      if k = App.bookmarksKey then some (StoredText.jsonArray ["a1".toList, "a2".toList])
      else if k = App.likesKey then some StoredText.malformed
      else none,
    writable := true }

/-- A store holding the JSON array of `a1` under the bookmark key and the
JSON array of `a2` under the like key. -/
def sampleStore : LocalStorage :=
  { items := fun k =>
      if k = App.bookmarksKey then some (StoredText.jsonArray ["a1".toList])
      else if k = App.likesKey then some (StoredText.jsonArray ["a2".toList])
      else none,
    writable := true }

/-- A preference state with bookmark `a1` and like `a2`. -/
def sampleApp : App :=
  { bookmarks := JsSet.ofIterable ["a1".toList], likes := JsSet.ofIterable ["a2".toList] }

/-- The article of the specification's scenario: tagged `LLM`, standard
category `ai-technology`, mood `practical`. -/
def scenarioArticle : Article :=
  { id := "s1".toList, catchyTitle := "Title".toList, originalTitle := "Original".toList,
    summary := ⟨"One line".toList, "Full".toList⟩, tags := ["LLM".toList],
    categories := ⟨["ai-technology".toList], []⟩, mood := ["practical".toList],
    readingTime := 125, thumbnail := none, metadata := ⟨"src".toList⟩,
    relatedArticles := none }

/-- A catalog in which article `p` lists the related ids `zz` (which
resolves to nothing), `a` and `b`. -/
def truncationCatalog : DataManager :=
  { articles :=
      [ sampleArticle "p".toList [] (some ["zz".toList, "a".toList, "b".toList]),
        sampleArticle "a".toList [] none,
        sampleArticle "b".toList [] none ],
    categories := { standard := [], thematic := [] },
    moods := [] }

/-! ## Specification-side predicates for the filter -/

/-- The category predicate of the filter, as the specification words it. -/
def categoryPredicate (f : Filters) (a : Article) : Prop :=
  f.currentCategory = "all".toList ∨ f.currentCategory ∈ a.categories.standard ∨
    f.currentCategory ∈ a.categories.thematic

/-- The mood predicate of the filter, as the specification words it. -/
def moodPredicate (f : Filters) (a : Article) : Prop :=
  f.currentMood = "all".toList ∨ f.currentMood ∈ a.mood

/-- The search predicate of the filter, as the specification words it: the
query is empty or occurs in the lower-cased concatenation, with a blank
between neighbours, of the four text fields and all tags. -/
def searchPredicate (js : Engine) (f : Filters) (a : Article) : Prop :=
  f.searchQuery = [] ∨
    f.searchQuery <:+:
      js.toLowerCase (List.intercalate [' ']
        ([a.catchyTitle, a.originalTitle, a.summary.oneLine, a.summary.fullSummary] ++ a.tags))

/-- The conjunction of the three predicates. -/
def combinedPredicate (js : Engine) (f : Filters) (a : Article) : Prop :=
  categoryPredicate f a ∧ moodPredicate f a ∧ searchPredicate js f a

/-! ## Helper lemmas -/

/-- `Array.prototype.join` puts the separator between neighbours. -/
theorem join_eq_intercalate (sep : JsString) (xs : List JsString) :
    join sep xs = List.intercalate sep xs := by
  induction xs with
  | nil => rfl
  | cons x ys ih =>
    cases ys with
    | nil => simp [join, List.intercalate]
    | cons y rest =>
      show x ++ sep ++ join sep (y :: rest) = _
      rw [ih]
      simp [List.intercalate, List.intersperse, List.append_assoc]

/-- The filter callback decides exactly the conjunction of the three
predicates. -/
theorem keeps_iff_combined (js : Engine) (f : Filters) (a : Article) :
    Filters.keeps js f a = true ↔ combinedPredicate js f a := by
  have hj : join " ".toList ([a.catchyTitle, a.originalTitle, a.summary.oneLine,
      a.summary.fullSummary] ++ a.tags) = List.intercalate [' ']
      ([a.catchyTitle, a.originalTitle, a.summary.oneLine, a.summary.fullSummary] ++
        a.tags) := join_eq_intercalate _ _
  unfold Filters.keeps combinedPredicate categoryPredicate moodPredicate searchPredicate
    Filters.searchFields Filters.searchFieldList truthy includes
  rw [hj]
  by_cases hc : f.currentCategory = "all".toList <;>
  by_cases hm : f.currentMood = "all".toList <;>
  by_cases hq : f.searchQuery = [] <;>
  by_cases h1 : f.currentCategory ∈ a.categories.standard <;>
  by_cases h2 : f.currentCategory ∈ a.categories.thematic <;>
  by_cases h3 : f.currentMood ∈ a.mood <;>
  simp [hc, hm, hq, h1, h2, h3, List.isEmpty_iff]

/-- With a selector other than `"all"`, searching the list returned by
`getAllMoods` is searching the stored moods: the prepended entry never
matches. -/
theorem find_getAllMoods_of_ne_all (dm : DataManager) (moodId : JsString)
    (h : moodId ≠ "all".toList) :
    dm.getAllMoods.find? (fun m => m.id == moodId) =
      dm.moods.find? (fun m => m.id == moodId) := by
  unfold DataManager.getAllMoods
  apply List.find?_cons_of_neg
  intro hEq
  have h2 : "all".toList = moodId := by simpa using hEq
  exact h h2.symm

/-- The test `x !== y` on strings, read as a proposition. -/
theorem bne_true_of_ne {x y : JsString} (h : x ≠ y) : (x != y) = true := by
  simpa using h

/-- The test `x !== y` on equal strings. -/
theorem bne_false_of_eq {x y : JsString} (h : x = y) : (x != y) = false := by
  simpa using h

/-- The empty string is falsy. -/
theorem truthy_false_of_nil {s : JsString} (h : s = []) : truthy s = false := by
  subst h; rfl

/-- A non-empty string is truthy. -/
theorem truthy_true_of_ne_nil {s : JsString} (h : s ≠ []) : truthy s = true := by
  cases s with
  | nil => exact absurd rfl h
  | cons c cs => rfl

/-- The category lookup guarded by `currentCategory !== 'all'` yields nothing
when the selector is `"all"` or does not resolve. -/
theorem guarded_category_none (f : Filters) (dm : DataManager)
    (hc : f.currentCategory = "all".toList ∨ dm.getCategoryById f.currentCategory = none) :
    (if (f.currentCategory != "all".toList) = true then
        dm.getCategoryById f.currentCategory else none) = none := by
  rcases hc with hc | hc
  · rw [if_neg (by rw [bne_false_of_eq hc]; exact Bool.false_ne_true)]
  · rw [hc]; exact ite_self _

/-- A contiguous part of a list is one of every extension to the left. -/
theorem infix_skip {α : Type} (p : List α) {n w : List α} (h : n <:+: w) :
    n <:+: p ++ w :=
  h.trans (List.suffix_append p w).isInfix

/-- Three leading segments of a right-nested concatenation form a contiguous
part of it. -/
theorem infix_head {α : Type} (a b c rest : List α) :
    a ++ (b ++ c) <:+: a ++ (b ++ (c ++ rest)) :=
  ⟨[], rest, by simp [List.append_assoc]⟩

/-- The card markup carries the article id as it is in the `data-id`
attribute of the bookmark button. -/
theorem createArticleCard_bookmark_data_id (js : Engine) (article : Article) :
    ("<button class=\"action-btn bookmark-btn\" data-id=\"".toList ++ article.id ++
      "\" aria-label=\"あとで読む\">".toList) <:+: Components.createArticleCard js article := by
  have h8 : "</span>\n          <div class=\"article-card__actions\">\n            <button class=\"action-btn bookmark-btn\" data-id=\"".toList
      = "</span>\n          <div class=\"article-card__actions\">\n            ".toList ++
        "<button class=\"action-btn bookmark-btn\" data-id=\"".toList := by decide
  have h9 : "\" aria-label=\"あとで読む\">\n              🔖\n            </button>\n            <button class=\"action-btn like-btn\" data-id=\"".toList
      = "\" aria-label=\"あとで読む\">".toList ++
        "\n              🔖\n            </button>\n            <button class=\"action-btn like-btn\" data-id=\"".toList := by decide
  unfold Components.createArticleCard
  rw [h8, h9]
  simp only [List.append_assoc]
  iterate 15 apply infix_skip
  exact infix_head _ _ _ _

/-- The card markup carries the article id as it is in the `data-id`
attribute of the like button. -/
theorem createArticleCard_like_data_id (js : Engine) (article : Article) :
    ("<button class=\"action-btn like-btn\" data-id=\"".toList ++ article.id ++
      "\" aria-label=\"いいね\">".toList) <:+: Components.createArticleCard js article := by
  have h9 : "\" aria-label=\"あとで読む\">\n              🔖\n            </button>\n            <button class=\"action-btn like-btn\" data-id=\"".toList
      = "\" aria-label=\"あとで読む\">\n              🔖\n            </button>\n            ".toList ++
        "<button class=\"action-btn like-btn\" data-id=\"".toList := by decide
  have h10 : "\" aria-label=\"いいね\">\n              🤍\n            </button>\n          </div>\n        </div>\n      </div>\n    ".toList
      = "\" aria-label=\"いいね\">".toList ++
        "\n              🤍\n            </button>\n          </div>\n        </div>\n      </div>\n    ".toList := by decide
  unfold Components.createArticleCard
  rw [h9, h10]
  simp only [List.append_assoc]
  iterate 17 apply infix_skip
  exact infix_head _ _ _ _

/-- Two sets are equal when their element lists are. -/
theorem JsSet.eq_of_elems_eq {s t : JsSet} (h : s.elems = t.elems) : s = t := by
  cases s; cases t; cases h; rfl

/-- `has` decides membership in the element list. -/
theorem JsSet.has_iff (s : JsSet) (x : JsString) : s.has x = true ↔ x ∈ s.elems := by
  unfold JsSet.has
  simp

/-- Membership after `add`. -/
theorem JsSet.mem_add (s : JsSet) (x y : JsString) :
    y ∈ (s.add x).elems ↔ y ∈ s.elems ∨ y = x := by
  unfold JsSet.add
  by_cases h : x ∈ s.elems
  · rw [dif_pos h]
    constructor
    · exact Or.inl
    · rintro (h1 | h1)
      · exact h1
      · exact h1 ▸ h
  · rw [dif_neg h]
    simp only [List.mem_append, List.mem_singleton]

/-- Membership after `delete`. -/
theorem JsSet.mem_delete (s : JsSet) (x y : JsString) :
    y ∈ (s.delete x).elems ↔ y ≠ x ∧ y ∈ s.elems := by
  unfold JsSet.delete
  exact s.nodup.mem_erase_iff

/-- Membership after adding the elements of a list one by one. -/
theorem JsSet.mem_foldl_add (xs : List JsString) (acc : JsSet) (y : JsString) :
    y ∈ (xs.foldl JsSet.add acc).elems ↔ y ∈ acc.elems ∨ y ∈ xs := by
  induction xs generalizing acc with
  | nil => simp
  | cons x xs ih =>
    rw [List.foldl_cons, ih, JsSet.mem_add, List.mem_cons, or_assoc]

/-- Adding, one by one, distinct elements that are all new appends them. -/
theorem JsSet.foldl_add_elems (xs : List JsString) (acc : JsSet) (hn : xs.Nodup)
    (hd : ∀ x ∈ xs, x ∉ acc.elems) :
    (xs.foldl JsSet.add acc).elems = acc.elems ++ xs := by
  induction xs generalizing acc with
  | nil => simp
  | cons x xs ih =>
    have hx : x ∉ acc.elems := hd x (List.mem_cons_self _ _)
    have hadd : (acc.add x).elems = acc.elems ++ [x] := by
      unfold JsSet.add
      rw [dif_neg hx]
    rw [List.foldl_cons, ih (acc.add x) (List.nodup_cons.mp hn).2, hadd, List.append_assoc]
    · rfl
    · intro y hy hmem
      rw [hadd, List.mem_append, List.mem_singleton] at hmem
      rcases hmem with h | h
      · exact hd y (List.mem_cons_of_mem _ hy) h
      · exact (List.nodup_cons.mp hn).1 (h ▸ hy)

/-- Rebuilding a set from its own array gives the set back. -/
theorem JsSet.ofIterable_toArray (s : JsSet) : JsSet.ofIterable s.toArray = s := by
  apply JsSet.eq_of_elems_eq
  unfold JsSet.ofIterable JsSet.toArray
  rw [JsSet.foldl_add_elems s.elems JsSet.empty s.nodup (fun _ _ h => by cases h)]
  rfl

/-- The members of `new Set(array)` are the elements of the array. -/
theorem JsSet.has_ofIterable (ids : List JsString) (x : JsString) :
    (JsSet.ofIterable ids).has x = true ↔ x ∈ ids := by
  rw [JsSet.has_iff]
  unfold JsSet.ofIterable
  rw [JsSet.mem_foldl_add]
  constructor
  · rintro (h | h)
    · cases h
    · exact h
  · exact Or.inr

/-- The two storage keys differ. -/
theorem likesKey_ne_bookmarksKey : App.likesKey ≠ App.bookmarksKey := by decide

/-- What `loadPreferences` makes of the bookmark key, whatever the like key
holds: nothing when the key is absent, the parsed set when it holds an
array. -/
theorem loadPreferences_bookmarks (app : App) (ls : LocalStorage) :
    (ls.getItem App.bookmarksKey = none →
      (App.loadPreferences app ls).bookmarks = app.bookmarks) ∧
    (ls.getItem App.bookmarksKey = some StoredText.malformed →
      (App.loadPreferences app ls).bookmarks = app.bookmarks) ∧
    (∀ ids, ls.getItem App.bookmarksKey = some (StoredText.jsonArray ids) →
      (App.loadPreferences app ls).bookmarks = JsSet.ofIterable ids) := by
  refine ⟨?_, ?_, ?_⟩
  · intro h
    unfold App.loadPreferences App.loadPreferencesTry
    simp only [h]
    cases ls.getItem App.likesKey with
    | none => rfl
    | some t => cases t <;> rfl
  · intro h
    unfold App.loadPreferences App.loadPreferencesTry
    simp only [h]
    rfl
  · intro ids h
    unfold App.loadPreferences App.loadPreferencesTry
    simp only [h]
    cases ls.getItem App.likesKey with
    | none => rfl
    | some t => cases t <;> rfl

/-- What `loadPreferences` makes of the like key when the bookmark key is
absent or holds an array. -/
theorem loadPreferences_likes (app : App) (ls : LocalStorage)
    (hb : ls.getItem App.bookmarksKey = none ∨
      ∃ bids, ls.getItem App.bookmarksKey = some (StoredText.jsonArray bids)) :
    (ls.getItem App.likesKey = none → (App.loadPreferences app ls).likes = app.likes) ∧
    (ls.getItem App.likesKey = some StoredText.malformed →
      (App.loadPreferences app ls).likes = app.likes) ∧
    (∀ ids, ls.getItem App.likesKey = some (StoredText.jsonArray ids) →
      (App.loadPreferences app ls).likes = JsSet.ofIterable ids) := by
  rcases hb with hb | ⟨bids, hb⟩
  · refine ⟨?_, ?_, ?_⟩ <;>
    · intros
      unfold App.loadPreferences App.loadPreferencesTry
      simp only [hb, *]
      try rfl
  · refine ⟨?_, ?_, ?_⟩ <;>
    · intros
      unfold App.loadPreferences App.loadPreferencesTry
      simp only [hb, *]
      try rfl

/-- A malformed bookmark text ends the `try` block of `loadPreferences`
before the like key is looked at. -/
theorem loadPreferences_likes_of_malformed_bookmarks (app : App) (ls : LocalStorage)
    (hb : ls.getItem App.bookmarksKey = some StoredText.malformed) :
    (App.loadPreferences app ls).likes = app.likes := by
  unfold App.loadPreferences App.loadPreferencesTry
  simp only [hb]
  rfl

/-- With writes accepted, `savePreferences` leaves both sets in the store. -/
theorem savePreferences_stores (app : App) (ls : LocalStorage) (hw : ls.writable = true) :
    (App.savePreferences app ls).getItem App.bookmarksKey =
      some (stringifySet app.bookmarks) ∧
    (App.savePreferences app ls).getItem App.likesKey = some (stringifySet app.likes) := by
  unfold App.savePreferences LocalStorage.setItem
  simp only [hw, if_true]
  unfold LocalStorage.getItem
  constructor
  · simp only [if_neg likesKey_ne_bookmarksKey.symm, if_true]
  · simp only [if_true]

/-- Reloading from a store that holds the two sets of `app` gives `app`
back. -/
theorem loadPreferences_of_stored (app : App) (ls : LocalStorage)
    (hb : ls.getItem App.bookmarksKey = some (stringifySet app.bookmarks))
    (hl : ls.getItem App.likesKey = some (stringifySet app.likes)) :
    App.loadPreferences App.initial ls = app := by
  have h1 := (loadPreferences_bookmarks App.initial ls).2.2 _ hb
  have h2 := (loadPreferences_likes App.initial ls (Or.inr ⟨_, hb⟩)).2.2 _ hl
  rw [JsSet.ofIterable_toArray] at h1 h2
  cases app with
  | mk b l =>
    cases hr : App.loadPreferences App.initial ls with
    | mk b2 l2 =>
      rw [hr] at h1 h2
      simp only at h1 h2
      rw [h1, h2]

/-- Each element of an array is a contiguous part of the joined string. -/
theorem infix_join_of_mem (sep : JsString) (xs : List JsString) (x : JsString)
    (hx : x ∈ xs) : x <:+: join sep xs := by
  induction xs with
  | nil => cases hx
  | cons y ys ih =>
    cases ys with
    | nil =>
      have hxy : x = y := by simpa using hx
      rw [hxy]
      exact List.infix_refl y
    | cons z rest =>
      show x <:+: y ++ sep ++ join sep (z :: rest)
      rcases List.mem_cons.mp hx with hxy | hmem
      · rw [hxy, List.append_assoc]
        exact (List.prefix_append y _).isInfix
      · exact infix_skip _ (ih hmem)

/-- A trimmed string is a contiguous part of the string. -/
theorem trim_contiguous (s : JsString) : trim s <:+: s := by
  unfold trim
  have h1 : s.dropWhile isTrimChar <:+ s := List.dropWhile_suffix _
  have h2 : (s.dropWhile isTrimChar).reverse.dropWhile isTrimChar <:+
      (s.dropWhile isTrimChar).reverse := List.dropWhile_suffix _
  have h3 : ((s.dropWhile isTrimChar).reverse.dropWhile isTrimChar).reverse <+:
      s.dropWhile isTrimChar := by
    have := List.reverse_prefix.mpr h2
    rwa [List.reverse_reverse] at this
  exact h3.isInfix.trans h1.isInfix

/-- The shape of the result of `getRelatedArticles` when the id resolves and
the article has a list of related ids. -/
theorem getRelatedArticles_eq_filterMap_take (dm : DataManager) (articleId : JsString)
    (limit : Nat) (article : Article) (related : List JsString)
    (h1 : dm.getArticleById articleId = some article)
    (h2 : article.relatedArticles = some related) :
    dm.getRelatedArticles articleId limit =
      (related.take limit).filterMap dm.getArticleById := by
  unfold DataManager.getRelatedArticles
  rw [h1]
  simp only [h2]
  generalize related.take limit = l
  induction l with
  | nil => rfl
  | cons x xs ih =>
    cases hx : dm.getArticleById x with
    | none => simpa [List.filterMap_cons, List.filter_cons, hx] using ih
    | some a => simpa [List.filterMap_cons, List.filter_cons, hx] using ih

/-- The overflow threshold is `2 ^ 1024 - 2 ^ 970`. -/
theorem overflowThreshold_eq : overflowThreshold = 2 ^ 1024 - 2 ^ 970 := by
  norm_num [overflowThreshold]

/-- Halving a number below `2 ^ (k + 1)` takes at most `k` steps. -/
theorem log2Fuel_le (fuel n k : Nat) (h : n < 2 ^ (k + 1)) : log2Fuel fuel n ≤ k := by
  induction fuel generalizing n k with
  | zero => exact Nat.zero_le _
  | succ fuel ih =>
    unfold log2Fuel
    by_cases h2 : n < 2
    · rw [if_pos h2]; exact Nat.zero_le _
    · rw [if_neg h2]
      cases k with
      | zero => omega
      | succ k =>
        have : n / 2 < 2 ^ (k + 1) := by
          rw [Nat.div_lt_iff_lt_mul (by norm_num)]
          calc n < 2 ^ (k + 1 + 1) := h
            _ = 2 ^ (k + 1) * 2 := by rw [pow_succ]
        exact Nat.succ_le_succ (ih _ _ this)

/-- The power of two at the counted position is not above the number. -/
theorem two_pow_log2Fuel_le (fuel n : Nat) (h : 1 ≤ n) : 2 ^ log2Fuel fuel n ≤ n := by
  induction fuel generalizing n with
  | zero => simpa [log2Fuel] using h
  | succ fuel ih =>
    unfold log2Fuel
    by_cases h2 : n < 2
    · rw [if_pos h2]; simpa using h
    · rw [if_neg h2]
      have h1 : 1 ≤ n / 2 := by omega
      have := ih (n / 2) h1
      rw [pow_succ]
      omega

/-- Rounding to the nearest integer never goes below the integer quotient. -/
theorem div_le_roundHalfEven (a b : Nat) : a / b ≤ roundHalfEven a b := by
  unfold roundHalfEven
  simp only
  split_ifs <;> omega

/-- Rounding a quotient by 60 to the nearest integer misses it by at most
a half. -/
theorem roundHalfEven_sixty (a : Nat) :
    60 * roundHalfEven a 60 ≤ a + 30 ∧ a ≤ 60 * roundHalfEven a 60 + 30 := by
  unfold roundHalfEven
  simp only
  split_ifs <;> omega

/-- An exact quotient by 60 is its own rounding. -/
theorem roundHalfEven_sixty_exact (a : Nat) (h : a % 60 = 0) :
    60 * roundHalfEven a 60 = a := by
  unfold roundHalfEven
  simp only
  split_ifs <;> omega

/-- An integer below `2 ^ 53` denotes itself. -/
theorem toNumber_of_lt (n : Nat) (h : n < 2 ^ 53) : toNumber n = n := by
  unfold toNumber
  rw [if_pos h]

/-- An integer from `2 ^ 53` on denotes a Number from `2 ^ 53` on. -/
theorem le_toNumber (n : Nat) (h : 2 ^ 53 ≤ n) : 2 ^ 53 ≤ toNumber n := by
  unfold toNumber
  rw [if_neg (Nat.not_lt.mpr h)]
  simp only
  have hpos : 1 ≤ n := le_trans (Nat.one_le_two_pow) h
  have hlog : 2 ^ floorLog2 n ≤ n := two_pow_log2Fuel_le n n hpos
  by_cases hb : floorLog2 n ≤ 52
  · have he : floorLog2 n - 52 = 0 := by omega
    rw [he, pow_zero, Nat.mul_one]
    exact le_trans h (le_trans (by rw [Nat.div_one]) (div_le_roundHalfEven n 1))
  · have hsplit : 2 ^ floorLog2 n = 2 ^ 52 * 2 ^ (floorLog2 n - 52) := by
      rw [← pow_add]; congr 1; omega
    have hq : 2 ^ 52 ≤ n / 2 ^ (floorLog2 n - 52) := by
      rw [Nat.le_div_iff_mul_le (by positivity)]
      rw [← hsplit]; exact hlog
    have hr := le_trans hq (div_le_roundHalfEven n (2 ^ (floorLog2 n - 52)))
    have he : 2 ≤ 2 ^ (floorLog2 n - 52) := by
      calc 2 = 2 ^ 1 := by norm_num
        _ ≤ 2 ^ (floorLog2 n - 52) := Nat.pow_le_pow_right (by norm_num) (by omega)
    calc 2 ^ 53 = 2 ^ 52 * 2 := by norm_num
      _ ≤ roundHalfEven n (2 ^ (floorLog2 n - 52)) * 2 ^ (floorLog2 n - 52) :=
        Nat.mul_le_mul hr he

/-- Below `2 ^ 53` the integer that is printed is the Number itself. -/
theorem shortestDecimal_of_lt (v : Nat) (h : v < 2 ^ 53) : shortestDecimal v = v := by
  unfold shortestDecimal
  simp only
  cases hf : List.find? (fun c => toNumber c == v)
      ((List.range (decimalLength v)).flatMap
        (fun i => candidatesAt v (decimalLength v) (i + 1))) with
  | none => rfl
  | some c =>
    have hc := List.find?_some hf
    have hcv : toNumber c = v := by simpa using hc
    show c = v
    by_cases hlt : c < 2 ^ 53
    · rw [toNumber_of_lt c hlt] at hcv; exact hcv
    · have := le_toNumber c (Nat.not_lt.mp hlt)
      omega

/-- Below `2 ^ 53` a Number is printed as its decimal digits. -/
theorem numberToString_of_lt (v : Nat) (h : v < 2 ^ 53) :
    numberToString v = (Nat.repr v).toList := by
  unfold numberToString
  simp only
  rw [shortestDecimal_of_lt v h, if_pos (lt_trans h (by norm_num))]

/-- For a Number of seconds from 60 up to `2 ^ 53`, `Math.round(seconds / 60)`
is the integer quotient of `seconds + 30` by 60: the rounding of the division
never crosses a half. -/
theorem mathRound_divide_sixty (s : Nat) (h60 : 60 ≤ s) (hs : s < 2 ^ 53) :
    mathRound (divide s 60) = (s + 30) / 60 := by
  have hb : floorLog2 (s / 60) ≤ 47 := by
    apply log2Fuel_le
    have : s / 60 < 2 ^ 48 := by
      rw [Nat.div_lt_iff_lt_mul (by norm_num)]
      exact lt_trans hs (by norm_num)
    exact this
  unfold divide
  rw [if_pos h60]
  simp only
  rw [if_neg (by omega)]
  unfold mathRound
  simp only
  generalize hk : 52 - floorLog2 (s / 60) = k
  have hk5 : 5 ≤ k := by omega
  have hP : 32 ≤ 2 ^ k := by
    calc 32 = 2 ^ 5 := by norm_num
      _ ≤ 2 ^ k := Nat.pow_le_pow_right (by norm_num) hk5
  have hPeven : 2 ^ k = 2 * 2 ^ (k - 1) := by
    rw [← pow_succ']; congr 1; omega
  generalize hm : roundHalfEven (s * 2 ^ k) 60 = m
  have hr := roundHalfEven_sixty (s * 2 ^ k)
  rw [hm] at hr
  have hdm := Nat.div_add_mod (s + 30) 60
  have hlt : (s + 30) % 60 < 60 := Nat.mod_lt _ (by norm_num)
  generalize hQ : (s + 30) / 60 = Q at hdm ⊢
  generalize hR : (s + 30) % 60 = r at hdm hlt
  have hmulP : (s + 30) * 2 ^ k = 60 * (Q * 2 ^ k) + r * 2 ^ k := by
    rw [← hdm]; ring
  have hsP : (s + 30) * 2 ^ k = s * 2 ^ k + 30 * 2 ^ k := by ring
  rw [pow_succ]
  apply Nat.div_eq_of_lt_le
  · -- Q * (2^k * 2) ≤ 2 * m + 2^k
    rcases Nat.eq_zero_or_pos r with hr0 | hrpos
    · -- exact case
      have hex : (s * 2 ^ k) % 60 = 0 := by
        have hs30 : s = 60 * Q - 30 := by omega
        have hQ1 : 1 ≤ Q := by omega
        have : s * 2 ^ k = 60 * ((2 * Q - 1) * 2 ^ (k - 1)) := by
          rw [hPeven]
          have : s = 30 * (2 * Q - 1) := by omega
          rw [this]; ring
        rw [this]; exact Nat.mul_mod_right _ _
      have hexact := roundHalfEven_sixty_exact (s * 2 ^ k) hex
      rw [hm] at hexact
      rw [hr0] at hmulP
      nlinarith [hmulP, hsP, hexact]
    · have hrP : 2 ^ k ≤ r * 2 ^ k := Nat.le_mul_of_pos_left _ hrpos
      nlinarith [hmulP, hsP, hr.1, hr.2, hrP, hP]
  · have hrP : r * 2 ^ k ≤ 59 * 2 ^ k := Nat.mul_le_mul_right _ (by omega)
    nlinarith [hmulP, hsP, hr.1, hr.2, hrP, hP]

/-- The ASCII engine maps ASCII letters as usual. -/
theorem asciiEngine_lowersAscii : asciiEngine.LowersAscii := fun _ _ => rfl

/-- The ASCII engine lower-cases the two sides of a blank separately. -/
theorem asciiEngine_lowersAcrossBlank : asciiEngine.LowersAcrossBlank := by
  intro a b
  show (a ++ ' ' :: b).map Char.toLower = a.map Char.toLower ++ ' ' :: b.map Char.toLower
  rw [List.map_append, List.map_cons]
  rfl

/-- Lower-casing a blank-joined array lower-cases its elements. -/
theorem toLowerCase_join (js : Engine) (hB : js.LowersAcrossBlank) (xs : List JsString)
    (hne : xs ≠ []) :
    js.toLowerCase (join " ".toList xs) = join " ".toList (xs.map js.toLowerCase) := by
  induction xs with
  | nil => exact absurd rfl hne
  | cons x ys ih =>
    cases ys with
    | nil => rfl
    | cons y rest =>
      show js.toLowerCase (x ++ [' '] ++ join " ".toList (y :: rest)) =
        js.toLowerCase x ++ [' '] ++ join " ".toList ((y :: rest).map js.toLowerCase)
      rw [List.append_assoc, List.singleton_append, hB, ih (List.cons_ne_nil _ _),
        List.append_assoc, List.singleton_append]

/-- The lower-cased search text of an article holds the lower case of each
of its tags. -/
theorem toLowerCase_tag_in_searchFields (js : Engine) (hB : js.LowersAcrossBlank)
    (a : Article) (t : JsString) (ht : t ∈ a.tags) :
    js.toLowerCase t <:+: Filters.searchFields js a := by
  unfold Filters.searchFields Filters.searchFieldList
  rw [toLowerCase_join js hB _ (by simp)]
  apply infix_join_of_mem
  exact List.mem_map_of_mem _ (List.mem_append_right _ ht)

/-- A query whose stored form is that of a tag of the article keeps the
article, whatever the filter state was before `init`. -/
theorem keeps_of_query_like_tag (js : Engine) (hB : js.LowersAcrossBlank) (f : Filters)
    (a : Article) (t q : JsString) (ht : t ∈ a.tags)
    (hq : trim (js.toLowerCase q) = trim (js.toLowerCase t)) :
    Filters.filterArticles js ((Filters.init f).setSearchQuery js q) [a] = [a] := by
  have hk : Filters.keeps js ((Filters.init f).setSearchQuery js q) a = true := by
    have hin : trim (js.toLowerCase q) <:+: Filters.searchFields js a := by
      rw [hq]
      exact (trim_contiguous _).trans (toLowerCase_tag_in_searchFields js hB a t ht)
    have hinc : includes (Filters.searchFields js a) (trim (js.toLowerCase q)) = true := by
      unfold includes
      exact decide_eq_true hin
    show Filters.keeps js ⟨"all".toList, "all".toList, trim (js.toLowerCase q)⟩ a = true
    have hall : (("all".toList : JsString) != "all".toList) = false := by decide
    unfold Filters.keeps
    simp only [hinc, hall, Bool.false_and, Bool.not_true, Bool.and_false,
      Bool.false_eq_true, if_false]
  unfold Filters.filterArticles
  rw [List.filter_cons_of_pos hk]
  rfl

/-- The lower-cased search text of the scenario article on an engine that
maps ASCII letters as usual. -/
theorem searchFields_scenarioArticle (js : Engine) (hA : js.LowersAscii) :
    Filters.searchFields js scenarioArticle = "title original one line full llm".toList := by
  unfold Filters.searchFields
  rw [hA _ (by decide)]
  decide

/-! ## Claims -/

/-- C1. Conjunction law: for every article and every filter state,
`filterArticles` on the one-element list is that list exactly when the
category, the mood and the search predicate all hold, is non-empty in exactly
that case, and is the empty list otherwise. -/
theorem filterArticles_singleton_conjunction (js : Engine) (f : Filters) (a : Article) :
    (Filters.filterArticles js f [a] = [a] ↔ combinedPredicate js f a) ∧
    (Filters.filterArticles js f [a] ≠ [] ↔ combinedPredicate js f a) ∧
    (¬ combinedPredicate js f a ↔ Filters.filterArticles js f [a] = []) := by
  have hk := keeps_iff_combined js f a
  unfold Filters.filterArticles
  by_cases h : Filters.keeps js f a = true
  · have hp := hk.mp h
    simp [List.filter, h, hp]
  · have hp : ¬ combinedPredicate js f a := fun hp => h (hk.mpr hp)
    have h' : Filters.keeps js f a = false := by simpa using h
    simp [List.filter, h', hp]

/-- C2. Filtering is stable: the result of `filterArticles` is a
subsequence of the input, its members are exactly the input elements that
satisfy the combined predicate, and each of those occurs as often as in the
input while every other article occurs not at all. -/
theorem filterArticles_stable (js : Engine) (f : Filters) (xs : List Article) :
    (Filters.filterArticles js f xs).Sublist xs ∧
    (∀ a, a ∈ Filters.filterArticles js f xs ↔ a ∈ xs ∧ combinedPredicate js f a) ∧
    (∀ a, combinedPredicate js f a →
      (Filters.filterArticles js f xs).count a = xs.count a) ∧
    (∀ a, ¬ combinedPredicate js f a → (Filters.filterArticles js f xs).count a = 0) := by
  unfold Filters.filterArticles
  refine ⟨List.filter_sublist xs, ?_, ?_, ?_⟩
  · intro a
    rw [List.mem_filter, keeps_iff_combined]
  · intro a ha
    rw [List.count_filter ((keeps_iff_combined js f a).mpr ha)]
  · intro a ha
    rw [List.count_eq_zero, List.mem_filter, keeps_iff_combined]
    exact fun h => ha h.2

/-- C3, as stated, fails: in the fallback catalog, with an empty query, the
category selector `"ghost"` (which no stored category carries) and the mood
selector `"practical"`, the title is the mood label and not the display name
of any category. -/
theorem getSectionTitle_unresolved_category_counterexample :
    Filters.getSectionTitle ⟨"ghost".toList, "practical".toList, []⟩
        (DataManager.loadFallbackData DataManager.initial) =
      "🛠️ すぐ使える知識".toList ∧
    (∀ c ∈ (DataManager.loadFallbackData DataManager.initial).getAllCategories,
      c.id ≠ "ghost".toList ∧
      c.name ≠ Filters.getSectionTitle ⟨"ghost".toList, "practical".toList, []⟩
        (DataManager.loadFallbackData DataManager.initial)) := by
  decide

/-- C3, amended. Section-title precedence: a non-empty query gives the search
label whatever the selectors are; with an empty query, a category selector
other than `"all"` that `getCategoryById` resolves gives that category's name
whatever the mood is; with an empty query and a category selector that is
`"all"` or does not resolve, a mood selector other than `"all"` found among
the stored moods gives its icon, a blank and its name; in every remaining
case the title is the generic label. -/
theorem getSectionTitle_precedence (f : Filters) (dm : DataManager) :
    (f.searchQuery ≠ [] →
      f.getSectionTitle dm = "「".toList ++ f.searchQuery ++ "」の検索結果".toList) ∧
    (∀ c, f.searchQuery = [] → f.currentCategory ≠ "all".toList →
      dm.getCategoryById f.currentCategory = some c → f.getSectionTitle dm = c.name) ∧
    (∀ m, f.searchQuery = [] →
      (f.currentCategory = "all".toList ∨ dm.getCategoryById f.currentCategory = none) →
      f.currentMood ≠ "all".toList →
      dm.moods.find? (fun m => m.id == f.currentMood) = some m →
      f.getSectionTitle dm = m.icon ++ " ".toList ++ m.name) ∧
    (f.searchQuery = [] →
      (f.currentCategory = "all".toList ∨ dm.getCategoryById f.currentCategory = none) →
      (f.currentMood = "all".toList ∨
        dm.moods.find? (fun m => m.id == f.currentMood) = none) →
      f.getSectionTitle dm = "すべての記事".toList) := by
  refine ⟨?_, ?_, ?_, ?_⟩
  · intro hq
    unfold Filters.getSectionTitle
    rw [if_pos (truthy_true_of_ne_nil hq)]
  · intro c hq hc hres
    unfold Filters.getSectionTitle
    rw [if_neg (by rw [truthy_false_of_nil hq]; exact Bool.false_ne_true),
      if_pos (bne_true_of_ne hc), hres]
  · intro m hq hc hm hres
    rw [← find_getAllMoods_of_ne_all dm f.currentMood hm] at hres
    unfold Filters.getSectionTitle
    rw [if_neg (by rw [truthy_false_of_nil hq]; exact Bool.false_ne_true),
      guarded_category_none f dm hc, if_pos (bne_true_of_ne hm), hres]
  · intro hq hc hm
    have hmood : (if (f.currentMood != "all".toList) = true then
        dm.getAllMoods.find? (fun m => m.id == f.currentMood) else none) = none := by
      by_cases hall : f.currentMood = "all".toList
      · rw [if_neg (by rw [bne_false_of_eq hall]; exact Bool.false_ne_true)]
      · rcases hm with hm | hm
        · exact absurd hm hall
        · rw [find_getAllMoods_of_ne_all dm f.currentMood hall, hm]; exact ite_self _
    unfold Filters.getSectionTitle
    rw [if_neg (by rw [truthy_false_of_nil hq]; exact Bool.false_ne_true),
      guarded_category_none f dm hc, hmood]

/-- Witness for C3, amended: the four clauses at the fallback catalog, for a
query, a resolved category, a mood under an unresolved category, and the
defaults. -/
theorem getSectionTitle_precedence_witness :
    Filters.getSectionTitle ⟨"ai-technology".toList, "practical".toList, "llm".toList⟩
        (DataManager.loadFallbackData DataManager.initial) =
      "「".toList ++ "llm".toList ++ "」の検索結果".toList ∧
    Filters.getSectionTitle ⟨"ai-technology".toList, "practical".toList, []⟩
        (DataManager.loadFallbackData DataManager.initial) = "AI・テクノロジー".toList ∧
    Filters.getSectionTitle ⟨"ghost".toList, "practical".toList, []⟩
        (DataManager.loadFallbackData DataManager.initial) =
      "🛠️".toList ++ " ".toList ++ "すぐ使える知識".toList ∧
    Filters.getSectionTitle ⟨"all".toList, "all".toList, []⟩
        (DataManager.loadFallbackData DataManager.initial) = "すべての記事".toList :=
  ⟨(getSectionTitle_precedence ⟨"ai-technology".toList, "practical".toList, "llm".toList⟩
      (DataManager.loadFallbackData DataManager.initial)).1 (by decide),
   (getSectionTitle_precedence ⟨"ai-technology".toList, "practical".toList, []⟩
      (DataManager.loadFallbackData DataManager.initial)).2.1
      ⟨"ai-technology".toList, "AI・テクノロジー".toList, "AI & Technology".toList, "🤖".toList⟩
      rfl (by decide) (by decide),
   (getSectionTitle_precedence ⟨"ghost".toList, "practical".toList, []⟩
      (DataManager.loadFallbackData DataManager.initial)).2.2.1
      ⟨"practical".toList, "すぐ使える知識".toList, "🛠️".toList⟩
      rfl (Or.inr (by decide)) (by decide) (by decide),
   (getSectionTitle_precedence ⟨"all".toList, "all".toList, []⟩
      (DataManager.loadFallbackData DataManager.initial)).2.2.2
      rfl (Or.inl rfl) (Or.inl rfl)⟩

/-- C4. AI classification: `isAIRelated` holds exactly when a standard or
thematic category is `"ai-technology"` or `"applied-ai"`, or some tag,
lower-cased, contains `"ai"`, `"chatgpt"` or `"llm"`; in particular a
thematic category `"applied-ai"` suffices whatever the tags are, and so does
the tag `"ChatGPT tips"` whatever the categories are, on every engine whose
`toLowerCase` maps ASCII letters as usual. -/
theorem isAIRelated_iff (js : Engine) (article : Article) :
    (DataManager.isAIRelated js article = true ↔
      (∃ c, (c ∈ article.categories.standard ∨ c ∈ article.categories.thematic) ∧
        (c = "ai-technology".toList ∨ c = "applied-ai".toList)) ∨
      (∃ tag ∈ article.tags,
        "ai".toList <:+: js.toLowerCase tag ∨ "chatgpt".toList <:+: js.toLowerCase tag ∨
        "llm".toList <:+: js.toLowerCase tag)) ∧
    ("applied-ai".toList ∈ article.categories.thematic →
      DataManager.isAIRelated js article = true) ∧
    (js.LowersAscii → "ChatGPT tips".toList ∈ article.tags →
      DataManager.isAIRelated js article = true) := by
  have hcat : ∀ c : JsString, DataManager.aiCategories.contains c = true ↔
      (c = "ai-technology".toList ∨ c = "applied-ai".toList) := by
    intro c
    unfold DataManager.aiCategories
    rw [List.contains_iff_exists_mem_beq]
    constructor
    · rintro ⟨x, hx, hb⟩
      have hcx : c = x := by simpa using hb
      subst hcx
      rcases List.mem_cons.mp hx with h | h
      · exact Or.inl h
      · exact Or.inr (List.mem_singleton.mp h)
    · rintro (h | h)
      · exact ⟨c, h ▸ List.mem_cons_self _ _, by simp⟩
      · exact ⟨c, h ▸ List.mem_cons_of_mem _ (List.mem_singleton.mpr rfl), by simp⟩
  have htag : ∀ tag : JsString, DataManager.isAITag js tag = true ↔
      ("ai".toList <:+: js.toLowerCase tag ∨ "chatgpt".toList <:+: js.toLowerCase tag ∨
        "llm".toList <:+: js.toLowerCase tag) := by
    intro tag
    unfold DataManager.isAITag includes
    rw [Bool.or_eq_true, Bool.or_eq_true, decide_eq_true_iff, decide_eq_true_iff,
      decide_eq_true_iff, or_assoc]
  have main : DataManager.isAIRelated js article = true ↔
      (∃ c, (c ∈ article.categories.standard ∨ c ∈ article.categories.thematic) ∧
        (c = "ai-technology".toList ∨ c = "applied-ai".toList)) ∨
      (∃ tag ∈ article.tags,
        "ai".toList <:+: js.toLowerCase tag ∨ "chatgpt".toList <:+: js.toLowerCase tag ∨
        "llm".toList <:+: js.toLowerCase tag) := by
    unfold DataManager.isAIRelated
    simp only [Bool.or_eq_true, List.any_eq_true, hcat, htag]
    constructor
    · rintro ((⟨c, hc, h⟩ | ⟨c, hc, h⟩) | h)
      · exact Or.inl ⟨c, Or.inl hc, h⟩
      · exact Or.inl ⟨c, Or.inr hc, h⟩
      · exact Or.inr h
    · rintro (⟨c, hc | hc, h⟩ | h)
      · exact Or.inl (Or.inl ⟨c, hc, h⟩)
      · exact Or.inl (Or.inr ⟨c, hc, h⟩)
      · exact Or.inr h
  refine ⟨main, ?_, ?_⟩
  · intro h
    exact main.mpr (Or.inl ⟨_, Or.inr h, Or.inr rfl⟩)
  · intro hA h
    have hl : js.toLowerCase "ChatGPT tips".toList = "chatgpt tips".toList := by
      rw [hA _ (by decide)]
      decide
    exact main.mpr (Or.inr ⟨_, h, Or.inr (Or.inl (by rw [hl]; decide))⟩)

/-- Witness for C4: an article whose only category is the thematic
`"applied-ai"` and that has no tag, and an article without category whose
only tag is `"ChatGPT tips"`, are both AI-related. -/
theorem isAIRelated_iff_witness :
    DataManager.isAIRelated asciiEngine
      { id := "a1".toList, catchyTitle := [], originalTitle := [],
        summary := ⟨[], []⟩, tags := [],
        categories := ⟨[], ["applied-ai".toList]⟩, mood := [], readingTime := 0,
        thumbnail := none, metadata := ⟨[]⟩, relatedArticles := none } = true ∧
    DataManager.isAIRelated asciiEngine
      { id := "a2".toList, catchyTitle := [], originalTitle := [],
        summary := ⟨[], []⟩, tags := ["ChatGPT tips".toList],
        categories := ⟨[], []⟩, mood := [], readingTime := 0,
        thumbnail := none, metadata := ⟨[]⟩, relatedArticles := none } = true :=
  ⟨(isAIRelated_iff asciiEngine _).2.1 (by decide),
   (isAIRelated_iff asciiEngine _).2.2 (fun _ _ => rfl) (by decide)⟩

/-- C5, evaluated on the code: in the catalog left by `loadFallbackData` the
stored standard pool and the stored mood pool each begin with an entry whose
id is `"all"`, so `getAllCategories` and `getAllMoods` each hold two entries
with id `"all"`, at positions 0 and 1. -/
theorem fallback_all_entry_duplicated :
    ((DataManager.loadFallbackData DataManager.initial).categories.standard.map
        (fun c => c.id)).head? = some "all".toList ∧
    ((DataManager.loadFallbackData DataManager.initial).moods.map
        (fun m => m.id)).head? = some "all".toList ∧
    (((DataManager.loadFallbackData DataManager.initial).getAllCategories.map
        (fun c => c.id)).take 2 = ["all".toList, "all".toList]) ∧
    (((DataManager.loadFallbackData DataManager.initial).getAllCategories.map
        (fun c => c.id)).count "all".toList = 2) ∧
    (((DataManager.loadFallbackData DataManager.initial).getAllMoods.map
        (fun m => m.id)).take 2 = ["all".toList, "all".toList]) ∧
    (((DataManager.loadFallbackData DataManager.initial).getAllMoods.map
        (fun m => m.id)).count "all".toList = 2) := by
  decide

/-- Witness for C2: on the sample catalog with the query `"llm"` the filter
keeps the one article tagged `LLM`, once. -/
theorem filterArticles_stable_witness :
    (Filters.filterArticles asciiEngine ⟨"all".toList, "all".toList, "llm".toList⟩
      sampleCatalog.articles).count
        (sampleArticle "a".toList ["LLM".toList]
          (some ["b".toList, "zz".toList, "c".toList])) = 1 :=
  (filterArticles_stable asciiEngine ⟨"all".toList, "all".toList, "llm".toList⟩
    sampleCatalog.articles).2.2.1 _
    ⟨Or.inl rfl, Or.inl rfl, Or.inr (by decide)⟩

/-- C6, evaluated on the code: `createMoodPill` inserts the mood's icon and
name as they are, so their `<`, `>` and `&` reach the markup where
`escapeHTML` would have produced character references; `getThumbnailStyle`
inserts the thumbnail URL as it is; and `createArticleCard`, on every engine,
inserts the article id into both `data-id` attributes as it is. -/
theorem markup_inserts_unescaped_data (js : Engine) :
    Components.createMoodPill markupMood false = "<span><i></span> a&b<c".toList ∧
    Components.escapeHTML markupMood.icon = "&lt;i&gt;".toList ∧
    Components.escapeHTML markupMood.name = "a&amp;b&lt;c".toList ∧
    Components.getThumbnailStyle (some ⟨"image".toList, some "a<b".toList, none⟩) =
      "background-image: url('a<b'); background-size: cover; background-position: center;".toList ∧
    markupArticle.id = "x\"><b>".toList ∧
    Components.escapeHTML markupArticle.id = "x\"&gt;&lt;b&gt;".toList ∧
    ("<button class=\"action-btn bookmark-btn\" data-id=\"x\"><b>\" aria-label=\"あとで読む\">".toList
      <:+: Components.createArticleCard js markupArticle) ∧
    ("<button class=\"action-btn like-btn\" data-id=\"x\"><b>\" aria-label=\"いいね\">".toList
      <:+: Components.createArticleCard js markupArticle) := by
  refine ⟨by decide, by decide, by decide, by decide, by decide, by decide, ?_, ?_⟩
  · have e : "<button class=\"action-btn bookmark-btn\" data-id=\"x\"><b>\" aria-label=\"あとで読む\">".toList
        = "<button class=\"action-btn bookmark-btn\" data-id=\"".toList ++ markupArticle.id ++
          "\" aria-label=\"あとで読む\">".toList := by decide
    rw [e]
    exact createArticleCard_bookmark_data_id js markupArticle
  · have e : "<button class=\"action-btn like-btn\" data-id=\"x\"><b>\" aria-label=\"いいね\">".toList
        = "<button class=\"action-btn like-btn\" data-id=\"".toList ++ markupArticle.id ++
          "\" aria-label=\"いいね\">".toList := by decide
    rw [e]
    exact createArticleCard_like_data_id js markupArticle

/-- C7. `getRelatedArticles` returns at most `limit` articles; each of them
is what `getArticleById` resolves from an identifier listed in the given
article's `relatedArticles`; they are the resolvable ones among the first
`limit` identifiers, in stored order, hence a subsequence of the resolved
list; and the result is empty when the id does not resolve or the article
has no `relatedArticles`. -/
theorem getRelatedArticles_spec (dm : DataManager) (articleId : JsString) (limit : Nat) :
    (dm.getRelatedArticles articleId limit).length ≤ limit ∧
    (∀ r ∈ dm.getRelatedArticles articleId limit,
      ∃ article related id, dm.getArticleById articleId = some article ∧
        article.relatedArticles = some related ∧ id ∈ related ∧
        dm.getArticleById id = some r) ∧
    (∀ article related, dm.getArticleById articleId = some article →
      article.relatedArticles = some related →
      dm.getRelatedArticles articleId limit =
        (related.take limit).filterMap dm.getArticleById ∧
      (dm.getRelatedArticles articleId limit).Sublist
        (related.filterMap dm.getArticleById)) ∧
    (dm.getArticleById articleId = none → dm.getRelatedArticles articleId limit = []) ∧
    (∀ article, dm.getArticleById articleId = some article →
      article.relatedArticles = none → dm.getRelatedArticles articleId limit = []) := by
  have key : ∀ (l : List JsString),
      ((l.map (fun id => dm.getArticleById id)).filter Option.isSome).filterMap (fun r => r) =
        l.filterMap dm.getArticleById := by
    intro l
    induction l with
    | nil => rfl
    | cons x xs ih =>
      cases hx : dm.getArticleById x with
      | none => simpa [List.filterMap_cons, List.filter_cons, hx] using ih
      | some a => simpa [List.filterMap_cons, List.filter_cons, hx] using ih
  have shape : ∀ article related, dm.getArticleById articleId = some article →
      article.relatedArticles = some related →
      dm.getRelatedArticles articleId limit =
        (related.take limit).filterMap dm.getArticleById := by
    intro article related h1 h2
    unfold DataManager.getRelatedArticles
    rw [h1]
    simp only [h2]
    exact key _
  refine ⟨?_, ?_, ?_, ?_, ?_⟩
  · cases h1 : dm.getArticleById articleId with
    | none => simp [DataManager.getRelatedArticles, h1]
    | some article =>
      cases h2 : article.relatedArticles with
      | none => simp [DataManager.getRelatedArticles, h1, h2]
      | some related =>
        rw [shape article related h1 h2]
        calc ((related.take limit).filterMap dm.getArticleById).length
            ≤ (related.take limit).length := List.length_filterMap_le _ _
          _ ≤ limit := by rw [List.length_take]; exact Nat.min_le_left _ _
  · intro r hr
    cases h1 : dm.getArticleById articleId with
    | none => simp [DataManager.getRelatedArticles, h1] at hr
    | some article =>
      cases h2 : article.relatedArticles with
      | none => simp [DataManager.getRelatedArticles, h1, h2] at hr
      | some related =>
        rw [shape article related h1 h2, List.mem_filterMap] at hr
        obtain ⟨id, hid, hres⟩ := hr
        exact ⟨article, related, id, rfl, h2, List.mem_of_mem_take hid, hres⟩
  · intro article related h1 h2
    refine ⟨shape article related h1 h2, ?_⟩
    rw [shape article related h1 h2]
    exact (List.take_sublist limit related).filterMap _
  · intro h1
    simp [DataManager.getRelatedArticles, h1]
  · intro article h1 h2
    simp [DataManager.getRelatedArticles, h1, h2]

set_option maxRecDepth 20000 in
/-- Witness for C7: in the sample catalog, article `a` lists `b`, `zz`, `c`;
with limit 3 the unresolvable `zz` is dropped and `b`, `c` come in stored
order; an unknown id and an article without the list give the empty list. -/
theorem getRelatedArticles_spec_witness :
    (sampleCatalog.getRelatedArticles "a".toList 3 =
        [sampleArticle "b".toList [] none,
         sampleArticle "c".toList ["cooking".toList] (some [])]) ∧
    sampleCatalog.getRelatedArticles "nope".toList 3 = [] ∧
    sampleCatalog.getRelatedArticles "b".toList 3 = [] :=
  ⟨((getRelatedArticles_spec sampleCatalog "a".toList 3).2.2.1
      (sampleArticle "a".toList ["LLM".toList] (some ["b".toList, "zz".toList, "c".toList]))
      ["b".toList, "zz".toList, "c".toList] (by decide) rfl).1.trans (by decide),
   (getRelatedArticles_spec sampleCatalog "nope".toList 3).2.2.2.1 (by decide),
   (getRelatedArticles_spec sampleCatalog "b".toList 3).2.2.2.2
      (sampleArticle "b".toList [] none) (by decide) rfl⟩

/-- C8, as stated, fails: with a bookmark text that is not JSON and a like
text that is the JSON array holding `a1`, `loadPreferences` started from
empty sets leaves the like set empty. -/
theorem loadPreferences_malformed_bookmarks_counterexample :
    corruptBookmarksStore.getItem App.bookmarksKey = some StoredText.malformed ∧
    corruptBookmarksStore.getItem App.likesKey =
      some (StoredText.jsonArray ["a1".toList]) ∧
    (App.loadPreferences App.initial corruptBookmarksStore).likes.has "a1".toList = false ∧
    (App.loadPreferences App.initial corruptBookmarksStore).likes.elems = [] := by
  decide

/-- C8, amended. `loadPreferences`, started from empty sets, is total (the
`catch` clause swallows every exception) and: a key that is absent or holds
malformed JSON leaves its own set empty; a bookmark key holding a JSON array
of ids is loaded as exactly those ids whatever the like key holds; a like key
holding a JSON array of ids is loaded as exactly those ids when the bookmark
key is absent or holds a JSON array. -/
theorem loadPreferences_tolerant (ls : LocalStorage) :
    ((ls.getItem App.bookmarksKey = none ∨
        ls.getItem App.bookmarksKey = some StoredText.malformed) →
      (App.loadPreferences App.initial ls).bookmarks = JsSet.empty) ∧
    ((ls.getItem App.likesKey = none ∨
        ls.getItem App.likesKey = some StoredText.malformed) →
      (App.loadPreferences App.initial ls).likes = JsSet.empty) ∧
    (∀ ids, ls.getItem App.bookmarksKey = some (StoredText.jsonArray ids) →
      ∀ x, (App.loadPreferences App.initial ls).bookmarks.has x = true ↔ x ∈ ids) ∧
    (∀ ids, ls.getItem App.likesKey = some (StoredText.jsonArray ids) →
      (ls.getItem App.bookmarksKey = none ∨
        ∃ bids, ls.getItem App.bookmarksKey = some (StoredText.jsonArray bids)) →
      ∀ x, (App.loadPreferences App.initial ls).likes.has x = true ↔ x ∈ ids) := by
  refine ⟨?_, ?_, ?_, ?_⟩
  · rintro (h | h)
    · exact (loadPreferences_bookmarks App.initial ls).1 h
    · exact (loadPreferences_bookmarks App.initial ls).2.1 h
  · intro hl
    cases hb : ls.getItem App.bookmarksKey with
    | none =>
      rcases hl with h | h
      · exact (loadPreferences_likes App.initial ls (Or.inl hb)).1 h
      · exact (loadPreferences_likes App.initial ls (Or.inl hb)).2.1 h
    | some t =>
      unfold App.loadPreferences App.loadPreferencesTry
      rcases hl with h | h <;> cases t <;> simp only [hb, h] <;> rfl
  · intro ids h x
    rw [(loadPreferences_bookmarks App.initial ls).2.2 ids h]
    exact JsSet.has_ofIterable ids x
  · intro ids h hb x
    rw [(loadPreferences_likes App.initial ls hb).2.2 ids h]
    exact JsSet.has_ofIterable ids x

/-- Witness for C8, amended: a malformed like text leaves the likes empty
and the bookmarks loaded; a malformed bookmark text leaves the bookmarks
empty; with both texts well formed the likes are loaded. -/
theorem loadPreferences_tolerant_witness :
    (App.loadPreferences App.initial corruptBookmarksStore).bookmarks = JsSet.empty ∧
    (App.loadPreferences App.initial corruptLikesStore).likes = JsSet.empty ∧
    ((App.loadPreferences App.initial corruptLikesStore).bookmarks.has "a2".toList = true ↔
      "a2".toList ∈ ["a1".toList, "a2".toList]) ∧
    ((App.loadPreferences App.initial sampleStore).likes.has "a2".toList = true ↔
      "a2".toList ∈ ["a2".toList]) :=
  ⟨(loadPreferences_tolerant corruptBookmarksStore).1 (Or.inr (by decide)),
   (loadPreferences_tolerant corruptLikesStore).2.1 (Or.inr (by decide)),
   (loadPreferences_tolerant corruptLikesStore).2.2.1 _ (by decide) _,
   (loadPreferences_tolerant sampleStore).2.2.2 _ (by decide)
     (Or.inr ⟨["a1".toList], by decide⟩) _⟩

/-- C9. Bookmark toggling is an involution on membership: two calls of
`toggleBookmark` with the same id leave every id's membership in the bookmark
set as it was; one call flips the membership of that id and of no other; the
like set is the same after one call and after two. -/
theorem toggleBookmark_involution (app : App) (ls : LocalStorage) (articleId : JsString) :
    (∀ x, (App.toggleBookmark (App.toggleBookmark app ls articleId).1
        (App.toggleBookmark app ls articleId).2 articleId).1.bookmarks.has x =
      app.bookmarks.has x) ∧
    ((App.toggleBookmark app ls articleId).1.bookmarks.has articleId =
      !app.bookmarks.has articleId) ∧
    (∀ x, x ≠ articleId →
      (App.toggleBookmark app ls articleId).1.bookmarks.has x = app.bookmarks.has x) ∧
    (App.toggleBookmark app ls articleId).1.likes = app.likes ∧
    (App.toggleBookmark (App.toggleBookmark app ls articleId).1
        (App.toggleBookmark app ls articleId).2 articleId).1.likes = app.likes := by
  have hadd : ∀ (s : JsSet) (x : JsString),
      (s.add articleId).has x = true ↔ (s.has x = true ∨ x = articleId) := by
    intro s x
    rw [JsSet.has_iff, JsSet.has_iff, JsSet.mem_add]
  have hdel : ∀ (s : JsSet) (x : JsString),
      (s.delete articleId).has x = true ↔ (x ≠ articleId ∧ s.has x = true) := by
    intro s x
    rw [JsSet.has_iff, JsSet.has_iff, JsSet.mem_delete]
  cases hmem : app.bookmarks.has articleId with
  | true =>
    have hdelself : (app.bookmarks.delete articleId).has articleId = false := by
      rw [Bool.eq_false_iff]
      intro h
      exact ((hdel _ _).mp h).1 rfl
    refine ⟨?_, ?_, ?_, ?_, ?_⟩
    · intro x
      simp only [App.toggleBookmark, hmem, if_true, hdelself, Bool.false_eq_true, if_false]
      rw [Bool.eq_iff_iff, hadd, hdel]
      constructor
      · rintro (⟨_, h⟩ | h)
        · exact h
        · rw [h]; exact hmem
      · intro h
        by_cases hx : x = articleId
        · exact Or.inr hx
        · exact Or.inl ⟨hx, h⟩
    · simp only [App.toggleBookmark, hmem, if_true]
      exact hdelself
    · intro x hx
      simp only [App.toggleBookmark, hmem, if_true]
      rw [Bool.eq_iff_iff, hdel]
      exact ⟨fun h => h.2, fun h => ⟨hx, h⟩⟩
    · simp only [App.toggleBookmark, hmem, if_true]
    · simp only [App.toggleBookmark, hmem, if_true, hdelself, Bool.false_eq_true, if_false]
  | false =>
    have haddself : (app.bookmarks.add articleId).has articleId = true :=
      (hadd _ _).mpr (Or.inr rfl)
    have hnot : ¬ app.bookmarks.has articleId = true := by
      rw [hmem]; exact Bool.false_ne_true
    refine ⟨?_, ?_, ?_, ?_, ?_⟩
    · intro x
      simp only [App.toggleBookmark, hmem, Bool.false_eq_true, if_false, haddself, if_true]
      rw [Bool.eq_iff_iff, hdel, hadd]
      constructor
      · rintro ⟨hx, h | h⟩
        · exact h
        · exact absurd h hx
      · intro h
        refine ⟨?_, Or.inl h⟩
        intro hx
        rw [hx] at h
        exact hnot h
    · simp only [App.toggleBookmark, hmem, Bool.false_eq_true, if_false]
      exact haddself
    · intro x hx
      simp only [App.toggleBookmark, hmem, Bool.false_eq_true, if_false]
      rw [Bool.eq_iff_iff, hadd]
      exact ⟨fun h => h.resolve_right hx, Or.inl⟩
    · simp only [App.toggleBookmark, hmem, Bool.false_eq_true, if_false]
    · simp only [App.toggleBookmark, hmem, Bool.false_eq_true, if_false, haddself, if_true]

/-- Witness for C9: toggling `a2` on the state that bookmarks `a1` leaves the
membership of `a1` as it was. -/
theorem toggleBookmark_involution_witness :
    (App.toggleBookmark sampleApp sampleStore "a2".toList).1.bookmarks.has "a1".toList =
      sampleApp.bookmarks.has "a1".toList :=
  (toggleBookmark_involution sampleApp sampleStore "a2".toList).2.2.1 "a1".toList (by decide)

/-- C10. Write-through round trip: when the store accepts writes, after
`toggleBookmark` and after `toggleLike` the store holds the JSON arrays of
both in-memory sets, and `loadPreferences` run from empty sets against that
store yields the in-memory sets as they are after the toggle. -/
theorem toggle_write_through_roundtrip (app : App) (ls : LocalStorage)
    (articleId : JsString) (hw : ls.writable = true) :
    ((App.toggleBookmark app ls articleId).2.getItem App.bookmarksKey =
        some (stringifySet (App.toggleBookmark app ls articleId).1.bookmarks) ∧
      (App.toggleBookmark app ls articleId).2.getItem App.likesKey =
        some (stringifySet (App.toggleBookmark app ls articleId).1.likes) ∧
      App.loadPreferences App.initial (App.toggleBookmark app ls articleId).2 =
        (App.toggleBookmark app ls articleId).1) ∧
    ((App.toggleLike app ls articleId).2.getItem App.bookmarksKey =
        some (stringifySet (App.toggleLike app ls articleId).1.bookmarks) ∧
      (App.toggleLike app ls articleId).2.getItem App.likesKey =
        some (stringifySet (App.toggleLike app ls articleId).1.likes) ∧
      App.loadPreferences App.initial (App.toggleLike app ls articleId).2 =
        (App.toggleLike app ls articleId).1) := by
  constructor
  · have h := savePreferences_stores (App.toggleBookmark app ls articleId).1 ls hw
    exact ⟨h.1, h.2, loadPreferences_of_stored _ _ h.1 h.2⟩
  · have h := savePreferences_stores (App.toggleLike app ls articleId).1 ls hw
    exact ⟨h.1, h.2, loadPreferences_of_stored _ _ h.1 h.2⟩

/-- Witness for C10: bookmarking `a2` on the sample state against the sample
store, then reloading from empty sets, gives the toggled state. -/
theorem toggle_write_through_roundtrip_witness :
    sampleStore.writable = true ∧
    App.loadPreferences App.initial
        (App.toggleBookmark sampleApp sampleStore "a2".toList).2 =
      (App.toggleBookmark sampleApp sampleStore "a2".toList).1 :=
  ⟨rfl, (toggle_write_through_roundtrip sampleApp sampleStore "a2".toList rfl).1.2.2⟩

/-- C11, as stated, fails beyond the safe integers: 60 000 000 000 000 000
000 000 seconds are an exact Number and give the exponent form `1e+21`, not
the 22 digits of `(s + 30) / 60`; and for `2 ^ 59 + 384` seconds, also an
exact Number, the rounded division gives a minute count ending in `064` where
`(s + 30) / 60` ends in `065`. -/
theorem formatReadingTime_large_counterexample :
    toNumber (6 * 10 ^ 22) = 6 * 10 ^ 22 ∧
    Components.formatReadingTime (6 * 10 ^ 22) = "1e+21分で読める".toList ∧
    (Nat.repr ((6 * 10 ^ 22 + 30) / 60)).toList ++ "分で読める".toList =
      "1000000000000000000000分で読める".toList ∧
    toNumber (2 ^ 59 + 384) = 2 ^ 59 + 384 ∧
    Components.formatReadingTime (2 ^ 59 + 384) = "9607679205057064分で読める".toList ∧
    (Nat.repr ((2 ^ 59 + 384 + 30) / 60)).toList ++ "分で読める".toList =
      "9607679205057065分で読める".toList := by
  decide

/-- C11, amended. Reading-time formatting on the safe integers: for a
non-negative integer `s` below `2 ^ 53`, below 60 seconds the text is the
decimal of `s` followed by `秒で読める`; from 60 seconds on it is the decimal
of `(s + 30) / 60` followed by `分で読める`, and that quotient is the whole
number of minutes nearest to `s / 60`, a half rounded up; 59 is still in
seconds and 60 is the first value in minutes; 45 gives `45秒で読める` and 125
gives `2分で読める`. -/
theorem formatReadingTime_spec (s : Nat) (hs : s < 2 ^ 53) :
    (s < 60 →
      Components.formatReadingTime s = (Nat.repr s).toList ++ "秒で読める".toList) ∧
    (60 ≤ s →
      Components.formatReadingTime s =
        (Nat.repr ((s + 30) / 60)).toList ++ "分で読める".toList) ∧
    ((((s + 30) / 60 : ℕ) : ℚ) - 1 / 2 ≤ (s : ℚ) / 60 ∧
      (s : ℚ) / 60 < (((s + 30) / 60 : ℕ) : ℚ) + 1 / 2) ∧
    Components.formatReadingTime 59 = "59秒で読める".toList ∧
    Components.formatReadingTime 60 = "1分で読める".toList ∧
    Components.formatReadingTime 45 = "45秒で読める".toList ∧
    Components.formatReadingTime 125 = "2分で読める".toList := by
  have hfin : ∀ n : Nat, n < 2 ^ 53 → ¬ overflowThreshold ≤ n := by
    intro n hn
    have : (2 : Nat) ^ 53 ≤ overflowThreshold := by decide
    omega
  have hsec : ∀ n : Nat, n < 2 ^ 53 → n < 60 →
      Components.formatReadingTime n = (Nat.repr n).toList ++ "秒で読める".toList := by
    intro n hn h60
    unfold Components.formatReadingTime
    rw [if_neg (hfin n hn)]
    simp only [toNumber_of_lt n hn]
    rw [if_pos h60, numberToString_of_lt n hn]
  have hmin : ∀ n : Nat, n < 2 ^ 53 → 60 ≤ n →
      Components.formatReadingTime n =
        (Nat.repr ((n + 30) / 60)).toList ++ "分で読める".toList := by
    intro n hn h60
    have hQ : (n + 30) / 60 < 2 ^ 53 := by
      have : (n + 30) / 60 ≤ n := by omega
      omega
    unfold Components.formatReadingTime
    rw [if_neg (hfin n hn)]
    simp only [toNumber_of_lt n hn]
    rw [if_neg (Nat.not_lt.mpr h60), mathRound_divide_sixty n h60 hn,
      numberToString_of_lt _ hQ]
  refine ⟨hsec s hs, hmin s hs, ?_, ?_, ?_, ?_, ?_⟩
  · have hdm := Nat.div_add_mod (s + 30) 60
    have hlt : (s + 30) % 60 < 60 := Nat.mod_lt _ (by norm_num)
    generalize (s + 30) / 60 = Q at hdm ⊢
    generalize (s + 30) % 60 = r at hdm hlt
    have hq : ((s : ℚ) + 30) = 60 * (Q : ℚ) + (r : ℚ) := by exact_mod_cast hdm.symm
    have hr0 : (0 : ℚ) ≤ (r : ℚ) := Nat.cast_nonneg _
    have hr1 : (r : ℚ) < 60 := by exact_mod_cast hlt
    constructor
    · rw [le_div_iff₀ (by norm_num)]; linarith
    · rw [div_lt_iff₀ (by norm_num)]; linarith
  · rw [hsec 59 (by norm_num) (by norm_num)]; decide
  · rw [hmin 60 (by norm_num) (by norm_num)]; decide
  · rw [hsec 45 (by norm_num) (by norm_num)]; decide
  · rw [hmin 125 (by norm_num) (by norm_num)]; decide

/-- Witness for C11, amended: 89 seconds round down to one minute, 90
seconds round up to two, 7 seconds stay in seconds. -/
theorem formatReadingTime_spec_witness :
    Components.formatReadingTime 89 = "1分で読める".toList ∧
    Components.formatReadingTime 90 = "2分で読める".toList ∧
    Components.formatReadingTime 7 = "7秒で読める".toList :=
  ⟨((formatReadingTime_spec 89 (by norm_num)).2.1 (by decide)).trans (by decide),
   ((formatReadingTime_spec 90 (by norm_num)).2.1 (by decide)).trans (by decide),
   ((formatReadingTime_spec 7 (by norm_num)).1 (by decide)).trans (by decide)⟩

/-- C12. Search matches an article's own tags case-insensitively: on every
engine whose `toLowerCase` maps ASCII letters as usual and treats the two
sides of a blank separately, after `init` and `setSearchQuery(t)` for a tag
`t` of the article, `filterArticles` keeps the article; so does every query
that differs from the tag only in letter case or in surrounding white space;
the scenario article tagged `LLM` is kept when searching `LLM`, `llm` or
`  Llm` with blanks and a tab around it, and dropped when searching `xyz`. -/
theorem search_matches_own_tag (js : Engine) (hA : js.LowersAscii)
    (hB : js.LowersAcrossBlank) (f : Filters) (article : Article) (t : JsString)
    (ht : t ∈ article.tags) :
    Filters.filterArticles js ((Filters.init f).setSearchQuery js t) [article] = [article] ∧
    (∀ q : JsString, trim (js.toLowerCase q) = trim (js.toLowerCase t) →
      Filters.filterArticles js ((Filters.init f).setSearchQuery js q) [article] =
        [article]) ∧
    Filters.filterArticles js ((Filters.init f).setSearchQuery js "LLM".toList)
      [scenarioArticle] = [scenarioArticle] ∧
    Filters.filterArticles js ((Filters.init f).setSearchQuery js "llm".toList)
      [scenarioArticle] = [scenarioArticle] ∧
    Filters.filterArticles js ((Filters.init f).setSearchQuery js "  Llm \t".toList)
      [scenarioArticle] = [scenarioArticle] ∧
    Filters.filterArticles js ((Filters.init f).setSearchQuery js "xyz".toList)
      [scenarioArticle] = [] := by
  have hLLM : "LLM".toList ∈ scenarioArticle.tags := by decide
  have hlow : ∀ q : JsString, (∀ c ∈ q, c.toNat < 128) →
      trim (q.map Char.toLower) = "llm".toList →
      trim (js.toLowerCase q) = trim (js.toLowerCase "LLM".toList) := by
    intro q hq hval
    rw [hA q hq, hA "LLM".toList (by decide), hval]
    decide
  refine ⟨keeps_of_query_like_tag js hB f article t t ht rfl,
    fun q hq => keeps_of_query_like_tag js hB f article t q ht hq,
    keeps_of_query_like_tag js hB f scenarioArticle _ _ hLLM rfl,
    keeps_of_query_like_tag js hB f scenarioArticle _ _ hLLM
      (hlow "llm".toList (by decide) (by decide)),
    keeps_of_query_like_tag js hB f scenarioArticle _ _ hLLM
      (hlow "  Llm \t".toList (by decide) (by decide)), ?_⟩
  have hk : Filters.keeps js ((Filters.init f).setSearchQuery js "xyz".toList)
      scenarioArticle = false := by
    show Filters.keeps js ⟨"all".toList, "all".toList, trim (js.toLowerCase "xyz".toList)⟩
      scenarioArticle = false
    unfold Filters.keeps
    rw [searchFields_scenarioArticle js hA, hA "xyz".toList (by decide)]
    decide
  unfold Filters.filterArticles
  rw [List.filter_cons_of_neg (by rw [hk]; exact Bool.false_ne_true)]
  rfl

/-- Witness for C12: the ASCII engine, a filter state left over from earlier
use, the scenario article and its tag `LLM`. -/
theorem search_matches_own_tag_witness :
    Filters.filterArticles asciiEngine
      ((Filters.init ⟨"ai-technology".toList, "motivating".toList,
        "old".toList⟩).setSearchQuery asciiEngine "LLM".toList)
      [scenarioArticle] = [scenarioArticle] :=
  (search_matches_own_tag asciiEngine asciiEngine_lowersAscii asciiEngine_lowersAcrossBlank
    ⟨"ai-technology".toList, "motivating".toList, "old".toList⟩
    scenarioArticle "LLM".toList (by decide)).1

/-- C13. Filtering is idempotent: filtering the filtered list again, under
the same filter state, changes nothing. -/
theorem filterArticles_idempotent (js : Engine) (f : Filters) (xs : List Article) :
    Filters.filterArticles js f (Filters.filterArticles js f xs) =
      Filters.filterArticles js f xs := by
  unfold Filters.filterArticles
  rw [List.filter_filter]
  congr 1
  funext a
  exact Bool.and_self _

/-- C14. `getRelatedArticles` truncates before it resolves: the result is
made of the resolvable articles among the first `limit` related ids; and in a
catalog where an article lists `zz` (missing), `a`, `b`, limit 2 gives only
`a`, fewer than the limit although two related ids resolve, and not the first
two resolvable ones. -/
theorem getRelatedArticles_truncates_before_resolving (dm : DataManager)
    (articleId : JsString) (limit : Nat) (article : Article) (related : List JsString)
    (h1 : dm.getArticleById articleId = some article)
    (h2 : article.relatedArticles = some related) :
    dm.getRelatedArticles articleId limit =
      (related.take limit).filterMap dm.getArticleById ∧
    (∃ (cat : DataManager) (id : JsString) (n : Nat) (art : Article) (rel : List JsString),
      cat.getArticleById id = some art ∧ art.relatedArticles = some rel ∧
      n ≤ (rel.filterMap cat.getArticleById).length ∧
      (cat.getRelatedArticles id n).length < n ∧
      cat.getRelatedArticles id n ≠ (rel.filterMap cat.getArticleById).take n) := by
  refine ⟨getRelatedArticles_eq_filterMap_take dm articleId limit article related h1 h2, ?_⟩
  exact ⟨truncationCatalog, "p".toList, 2,
    sampleArticle "p".toList [] (some ["zz".toList, "a".toList, "b".toList]),
    ["zz".toList, "a".toList, "b".toList], by decide, rfl, by decide, by decide, by decide⟩

set_option maxRecDepth 20000 in
/-- Witness for C14: in the truncation catalog, `p` with limit 2 yields only
`a`. -/
theorem getRelatedArticles_truncates_before_resolving_witness :
    truncationCatalog.getRelatedArticles "p".toList 2 = [sampleArticle "a".toList [] none] :=
  ((getRelatedArticles_truncates_before_resolving truncationCatalog "p".toList 2
      (sampleArticle "p".toList [] (some ["zz".toList, "a".toList, "b".toList]))
      ["zz".toList, "a".toList, "b".toList] (by decide) rfl).1).trans (by decide)

end PaperInsight
